import Mathlib

/-!
Shallow embedding of the LightHost node-graph routing core
(NodeGraphCanvas in MainWindowContent.cpp / MainWindowContent.h) and of the
slice of juce::AudioProcessorGraph behaviour it relies on.

Machine integers: canvas node ids and coordinates are C++ `int`; they are
modelled as `Int` (no arithmetic in the embedded code can overflow for the
values reachable here).  Engine node uids are `uint32`, modelled as `Nat`.
Opaque plugin state blobs travel base64-encoded through the XML document;
the encode/decode pair is the identity on the blob, so the blob is modelled
as the transported `String` itself.
-/

namespace LightHost

/-- `PluginNode::kW` -/
def kW : Int := 140
/-- `PluginNode::kH` -/
def kH : Int := 56
/-- `PluginNode::kSideH` -/
def kSideH : Int := 40
/-- `NodeGraphCanvas::kZoneW` -/
def kZoneW : Int := 170
/-- `NodeGraphCanvas::kHdrH` -/
def kHdrH : Int := 34
/-- `NodeGraphCanvas::kInputNodeUID` -/
def kInputNodeUID : Nat := 1000000
/-- `NodeGraphCanvas::kOutputNodeUID` -/
def kOutputNodeUID : Nat := 1000001

/-- `enum class NodeType { Input, Output, Plugin }` -/
inductive NodeType where
  | Input
  | Output
  | Plugin
deriving DecidableEq

/-- `struct PluginNode` (visual + audio node; `graphNodeId = 0` means not in
the engine graph). `pos` is split into `posX`/`posY`. -/
structure PluginNode where
  id : Int
  type : NodeType
  name : String
  posX : Int
  posY : Int
  graphNodeId : Nat
deriving DecidableEq

/-- `PluginNode::hasInputPort` -/
def PluginNode.hasInputPort (n : PluginNode) : Bool :=
  decide (n.type ≠ NodeType.Input)

/-- `PluginNode::hasOutputPort` -/
def PluginNode.hasOutputPort (n : PluginNode) : Bool :=
  decide (n.type ≠ NodeType.Output)

/-- `struct NodeWire { int fromNode; int toNode; }` -/
structure NodeWire where
  fromNode : Int
  toNode : Int
deriving DecidableEq

/-- A `juce::PluginDescription` restricted to the identity triple this core
reads and writes. -/
structure PluginDescription where
  name : String
  pluginFormatName : String
  fileOrIdentifier : String
deriving DecidableEq

/-- An opaque `AudioProcessor`/`AudioPluginInstance`: the description it
reports through `fillInPluginDescription` and the opaque state blob exposed
by `getStateInformation` / replaced by `setStateInformation`. -/
structure Processor where
  descName : String
  descFormat : String
  descIdent : String
  state : String
deriving DecidableEq

/-- One channel route inside the engine
(`AudioProcessorGraph::Connection`). -/
structure EngineConn where
  srcNode : Nat
  srcCh : Nat
  dstNode : Nat
  dstCh : Nat
deriving DecidableEq

/-- The slice of `juce::AudioProcessorGraph` state this core observes:
the node table, the connection list, and the last node id used for
automatic uid assignment. -/
structure EngineGraph where
  engineNodes : List (Nat × Processor)
  connections : List EngineConn
  lastNodeId : Nat
deriving DecidableEq

/-- `AudioProcessorGraph::getNodeForId` -/
def EngineGraph.getNodeForId (g : EngineGraph) (uid : Nat) : Option Processor :=
  (g.engineNodes.find? (fun e => decide (e.fst = uid))).map (fun e => e.snd)

/-- `AudioProcessorGraph::addNode` with an automatically assigned NodeID:
juce assigns `++lastNodeId` and returns the new node. -/
def EngineGraph.addNodeAuto (g : EngineGraph) (p : Processor) : EngineGraph × Nat :=
  let uid := g.lastNodeId + 1
  ({ engineNodes := g.engineNodes ++ [(uid, p)],
     connections := g.connections,
     lastNodeId := uid }, uid)

/-- `AudioProcessorGraph::addNode` with an explicit NodeID (used once at
startup by `IconMenu::loadActivePlugins` for the two fixed lane nodes);
juce bumps `lastNodeId` up to the explicit uid. -/
def EngineGraph.addNodeWithId (g : EngineGraph) (p : Processor) (uid : Nat) : EngineGraph :=
  { engineNodes := g.engineNodes ++ [(uid, p)],
    connections := g.connections,
    lastNodeId := max g.lastNodeId uid }

/-- `AudioProcessorGraph::removeNode`: juce disconnects every connection
touching the node, then erases the node. -/
def EngineGraph.removeNode (g : EngineGraph) (uid : Nat) : EngineGraph :=
  { engineNodes := g.engineNodes.filter (fun e => decide (e.fst ≠ uid)),
    connections := g.connections.filter
      (fun c => decide (c.srcNode ≠ uid ∧ c.dstNode ≠ uid)),
    lastNodeId := g.lastNodeId }

/-- `AudioProcessorGraph::addConnection`: succeeds iff both endpoints exist,
the endpoints are distinct nodes, and the connection is not already
present; on success the route is appended. -/
def EngineGraph.addConnection (g : EngineGraph) (c : EngineConn) : EngineGraph × Bool :=
  if (g.getNodeForId c.srcNode).isSome ∧ (g.getNodeForId c.dstNode).isSome
      ∧ c.srcNode ≠ c.dstNode ∧ c ∉ g.connections then
    ({ g with connections := g.connections ++ [c] }, true)
  else (g, false)

/-- `AudioProcessorGraph::removeConnection`: removes the matching route if
present (a missing route is a no-op). -/
def EngineGraph.removeConnection (g : EngineGraph) (c : EngineConn) : EngineGraph :=
  { g with connections := g.connections.filter (fun x => decide (x ≠ c)) }

/-- The whole mutable state of `NodeGraphCanvas` that the claims talk
about, together with the engine graph it mirrors into.  `width`/`height`
are the component bounds read by `getWidth()`/`getHeight()`. -/
structure HostState where
  graph : EngineGraph
  nodes : List PluginNode
  wires : List NodeWire
  nextId : Int
  selectedNode : Int
  width : Int
  height : Int
deriving DecidableEq

/-- The node lookup loop pattern used all over the source without `break`:
the last matching node wins. -/
def findNode (ns : List PluginNode) (i : Int) : Option PluginNode :=
  ns.foldl (fun acc n => if n.id = i then some n else acc) none

/-- The node lookup loop pattern used with `break` / early `return`:
the first matching node wins. -/
def findFirst (ns : List PluginNode) (i : Int) : Option PluginNode :=
  ns.find? (fun n => decide (n.id = i))

/-- `NodeGraphCanvas::isValidWire` (MainWindowContent.cpp): rejects a
self-loop, a missing endpoint, a source without an output port, a sink
without an input port, and the (redundant) Input to Input and Output to
Output pairings. -/
def isValidWire (ns : List PluginNode) (fromId toId : Int) : Bool :=
  if fromId = toId then false
  else
    match findNode ns fromId, findNode ns toId with
    | some fr, some tn =>
      if fr.hasOutputPort = false ∨ tn.hasInputPort = false then false
      else if fr.type = NodeType.Input ∧ tn.type = NodeType.Input then false
      else if fr.type = NodeType.Output ∧ tn.type = NodeType.Output then false
      else true
    | _, _ => false

/-- `NodeGraphCanvas::addNode` (MainWindowContent.cpp): assigns the next
canvas id, lays Input/Output rows out in their lane (position derived from
the current count of same-kind nodes) and binds them to the fixed engine
uids; a Plugin node keeps the struct defaults `pos = {200, 100}` and
`graphNodeId = 0`.  The engine graph is untouched. -/
def addNode (s : HostState) (name : String) (ty : NodeType) : HostState :=
  let base : PluginNode :=
    { id := s.nextId, type := ty, name := name, posX := 200, posY := 100, graphNodeId := 0 }
  let n :=
    if ty = NodeType.Input then
      let cnt : Int := (s.nodes.filter (fun x => decide (x.type = NodeType.Input))).length
      { base with posX := 0, posY := kHdrH + 6 + cnt * (kSideH + 6),
                  graphNodeId := kInputNodeUID }
    else if ty = NodeType.Output then
      let cnt : Int := (s.nodes.filter (fun x => decide (x.type = NodeType.Output))).length
      { base with posX := s.width - kZoneW, posY := kHdrH + 6 + cnt * (kSideH + 6),
                  graphNodeId := kOutputNodeUID }
    else base
  { s with nodes := s.nodes ++ [n], nextId := s.nextId + 1 }

/-- `NodeGraphCanvas::addGraphConnection`: skipped with a diagnostic when
either endpoint is unknown to the engine; otherwise both stereo channel
routes are added best-effort (each `addConnection` failure is only
logged). -/
def addGraphConnection (g : EngineGraph) (fr tn : PluginNode) : EngineGraph :=
  if (g.getNodeForId fr.graphNodeId).isNone then g
  else if (g.getNodeForId tn.graphNodeId).isNone then g
  else
    let g1 := (g.addConnection ⟨fr.graphNodeId, 0, tn.graphNodeId, 0⟩).fst
    (g1.addConnection ⟨fr.graphNodeId, 1, tn.graphNodeId, 1⟩).fst

/-- `NodeGraphCanvas::removeGraphConnection`: removes both stereo channel
routes. -/
def removeGraphConnection (g : EngineGraph) (fr tn : PluginNode) : EngineGraph :=
  (g.removeConnection ⟨fr.graphNodeId, 0, tn.graphNodeId, 0⟩).removeConnection
    ⟨fr.graphNodeId, 1, tn.graphNodeId, 1⟩

/-- One iteration of the engine-side loop of
`NodeGraphCanvas::clearGraphInputConnections`: a wire into the target node
has the engine routes from the first node matching its source removed. -/
def clearConnStep (ns : List PluginNode) (tn : PluginNode) (g : EngineGraph)
    (w : NodeWire) : EngineGraph :=
  if w.toNode = tn.id then
    match findFirst ns w.fromNode with
    | some fn => removeGraphConnection g fn tn
    | none => g
  else g

/-- `NodeGraphCanvas::clearGraphInputConnections`: for every wire into the
given node, the engine routes from the first node matching the wire's
source are removed; then every wire into the node is erased from the wire
list. -/
def clearGraphInputConnections (s : HostState) (tn : PluginNode) : HostState :=
  { s with graph := s.wires.foldl (clearConnStep s.nodes tn) s.graph,
           wires := s.wires.filter (fun w => decide (w.toNode ≠ tn.id)) }

/-- The committed-connection path of `NodeGraphCanvas::mouseUp`: once the
drag gesture has resolved to source `fromId` and sink `toId`, the wire is
validated, all existing input connections of the sink are cleared (visual
and engine), the new engine connection is added, and the visual wire is
recorded. -/
def connect (s : HostState) (fromId toId : Int) : HostState :=
  if isValidWire s.nodes fromId toId then
    match findNode s.nodes fromId, findNode s.nodes toId with
    | some frNode, some toNode =>
      let s1 := clearGraphInputConnections s toNode
      { s1 with graph := addGraphConnection s1.graph frNode toNode,
                wires := s1.wires ++ [⟨fromId, toId⟩] }
    | _, _ => s
  else s

/-- `NodeGraphCanvas::removeNode` (MainWindowContent.cpp): if the id names
a node, its engine node is removed when it is non-null and known to the
engine, the node and every wire touching it are erased, and the selection
is cleared. -/
def removeNode (s : HostState) (nodeId : Int) : HostState :=
  match findFirst s.nodes nodeId with
  | none => s
  | some nd =>
    let g :=
      if nd.graphNodeId ≠ 0 then
        if (s.graph.getNodeForId nd.graphNodeId).isSome then
          s.graph.removeNode nd.graphNodeId
        else s.graph
      else s.graph
    { s with graph := g,
             nodes := s.nodes.filter (fun n => decide (n.id ≠ nodeId)),
             wires := s.wires.filter
               (fun w => decide (¬ (w.fromNode = nodeId ∨ w.toNode = nodeId))),
             selectedNode := -1 }

/-- `NodeGraphCanvas::disconnectNode`: every wire touching the node is
erased; for each such wire whose two endpoints resolve to nodes, the
engine routes between them are removed. -/
def disconnectNode (s : HostState) (nodeId : Int) : HostState :=
  let touching := s.wires.filter
    (fun w => decide (w.fromNode = nodeId ∨ w.toNode = nodeId))
  let g := touching.foldr
    (fun w g =>
      match findNode s.nodes w.fromNode, findNode s.nodes w.toNode with
      | some fr, some tn => removeGraphConnection g fr tn
      | _, _ => g) s.graph
  { s with graph := g,
           wires := s.wires.filter
             (fun w => decide (¬ (w.fromNode = nodeId ∨ w.toNode = nodeId))) }

/-- The node-dragging branch of `NodeGraphCanvas::mouseDrag`: the first
node whose id matches the drag target has its position clamped to
`[kZoneW, width - kZoneW - kW] x [0, height - kH]` around the cursor. -/
def updateFirst (ns : List PluginNode) (i : Int) (f : PluginNode → PluginNode) :
    List PluginNode :=
  match ns with
  | [] => []
  | n :: rest => if n.id = i then f n :: rest else n :: updateFirst rest i f

/-- The clamped position computed by `mouseDrag` for cursor `(ex, ey)`. -/
def dragPos (width height ex ey : Int) : Int × Int :=
  (max kZoneW (min (width - kZoneW - kW) (ex - kW / 2)),
   max 0 (min (height - kH) (ey - kH / 2)))

/-- `NodeGraphCanvas::mouseDrag` while a node drag is active. -/
def mouseDragNode (s : HostState) (dragging : Int) (ex ey : Int) : HostState :=
  let p := dragPos s.width s.height ex ey
  let f := fun nd => { nd with posX := p.fst, posY := p.snd }
  { s with nodes := updateFirst s.nodes dragging f }

/-- The menu-result continuation of `NodeGraphCanvas::showPluginPicker`
once a descriptor has been chosen.  `instResult` is the outcome of the
external `AudioPluginFormatManager::createPluginInstance` collaborator.
On failure an alert is surfaced (the returned flag) and nothing mutates;
on success the instance is added to the engine (fresh auto uid) and a
canvas node with the next canvas id is appended at the computed stacked
position. -/
def showPluginPicker (s : HostState) (desc : PluginDescription)
    (instResult : Option Processor) : HostState × Bool :=
  match instResult with
  | none => (s, true)
  | some p =>
    let gr := s.graph.addNodeAuto p
    let cx : Int := (s.width - kZoneW * 2) / 2 + kZoneW - kW / 2
    let cnt : Int := (s.nodes.filter (fun x => decide (x.type = NodeType.Plugin))).length
    let n : PluginNode :=
      { id := s.nextId, type := NodeType.Plugin, name := desc.name,
        posX := cx, posY := 60 + cnt * (kH + 20), graphNodeId := gr.snd }
    ({ s with graph := gr.fst, nodes := s.nodes ++ [n], nextId := s.nextId + 1 }, false)

/-- One `<Node>` element of the persisted document.  Attribute reads on a
missing attribute default to `""`/`0` in juce, so absent plugin attributes
are the empty string; the optional `<PluginState>` child carries the
blob. -/
structure DocNode where
  id : Int
  ty : Int
  name : String
  x : Int
  y : Int
  pluginName : String
  pluginFormat : String
  pluginIdent : String
  pluginState : Option String
deriving DecidableEq

/-- The persisted `<NodeGraph>` document. -/
structure NodeGraphDoc where
  docNodes : List DocNode
  docWires : List NodeWire
deriving DecidableEq

/-- `static_cast<int>(n.type)` -/
def nodeTypeToInt : NodeType → Int
  | NodeType.Input => 0
  | NodeType.Output => 1
  | NodeType.Plugin => 2

/-- `static_cast<NodeType>(i)` on the persisted values 0, 1, 2 (other
values are out of the enum's range; the document writer only emits
0, 1, 2). -/
def intToNodeType (i : Int) : NodeType :=
  if i = 0 then NodeType.Input
  else if i = 1 then NodeType.Output
  else NodeType.Plugin

/-- The `<Node>` element `NodeGraphCanvas::saveState` emits for one canvas
node: id, type, name and position always; for a Plugin node whose engine
node resolves to a processor, also the identity triple reported by the
processor and its state blob. -/
def saveNode (g : EngineGraph) (n : PluginNode) : DocNode :=
  let base : DocNode :=
    { id := n.id, ty := nodeTypeToInt n.type, name := n.name, x := n.posX, y := n.posY,
      pluginName := "", pluginFormat := "", pluginIdent := "", pluginState := none }
  if n.type = NodeType.Plugin then
    match g.getNodeForId n.graphNodeId with
    | some proc =>
      { base with pluginName := proc.descName, pluginFormat := proc.descFormat,
                  pluginIdent := proc.descIdent, pluginState := some proc.state }
    | none => base
  else base

/-- `NodeGraphCanvas::saveState`: nodes then wires, in insertion order. -/
def saveState (s : HostState) : NodeGraphDoc :=
  { docNodes := s.nodes.map (saveNode s.graph), docWires := s.wires }

/-- The descriptor `loadState` rebuilds for a persisted plugin: the bare
persisted triple, replaced by the first known-plugin entry whose
`fileOrIdentifier` matches exactly. -/
def resolveDesc (known : List PluginDescription) (dn : DocNode) : PluginDescription :=
  let d0 : PluginDescription :=
    { name := dn.pluginName, pluginFormatName := dn.pluginFormat,
      fileOrIdentifier := dn.pluginIdent }
  match known.find? (fun d => decide (d.fileOrIdentifier = dn.pluginIdent)) with
  | some d => d
  | none => d0

/-- `if (n.id >= nextId) nextId = n.id + 1;` -/
def advanceId (nid i : Int) : Int :=
  if i ≥ nid then i + 1 else nid

/-- The canvas node `loadState` rebuilds from one `<Node>` element, with
the engine uid it ends up bound to. -/
def mkLoadedNode (dn : DocNode) (gid : Nat) : PluginNode :=
  { id := dn.id, type := intToNodeType dn.ty, name := dn.name, posX := dn.x, posY := dn.y,
    graphNodeId := gid }

/-- `setStateInformation` applied when the `<PluginState>` child is
present: the instance's opaque state becomes the persisted blob. -/
def restoreProcState (p : Processor) (st : Option String) : Processor :=
  match st with
  | some blob => { p with state := blob }
  | none => p

/-- One iteration of the node-restore loop of `NodeGraphCanvas::loadState`,
threading `(graph, nodes, nextId)`.  The canvas id counter is advanced past
the restored id; Input/Output re-bind to the fixed engine uids; a Plugin
node instantiates through the external service, restores its state blob,
and is added to the engine — and on instantiation failure the node is
still pushed, with `graphNodeId` left at 0. -/
def loadOneNode (known : List PluginDescription)
    (inst : PluginDescription → Option Processor)
    (acc : EngineGraph × List PluginNode × Int) (dn : DocNode) :
    EngineGraph × List PluginNode × Int :=
  let g := acc.fst
  let ns := acc.snd.fst
  let nid := acc.snd.snd
  let ty := intToNodeType dn.ty
  if ty = NodeType.Input then
    (g, ns ++ [mkLoadedNode dn kInputNodeUID], advanceId nid dn.id)
  else if ty = NodeType.Output then
    (g, ns ++ [mkLoadedNode dn kOutputNodeUID], advanceId nid dn.id)
  else
    match inst (resolveDesc known dn) with
    | none =>
      (g, ns ++ [mkLoadedNode dn 0], advanceId nid dn.id)
    | some p =>
      let gr := g.addNodeAuto (restoreProcState p dn.pluginState)
      (gr.fst, ns ++ [mkLoadedNode dn gr.snd], advanceId nid dn.id)

/-- One iteration of the wire-restore loop of `loadState`: the wire is
always pushed; the engine connection is replayed only when both endpoints
resolve to loaded nodes whose engine uid is non-null. -/
def loadOneWire (ns : List PluginNode) (acc : EngineGraph × List NodeWire)
    (dw : NodeWire) : EngineGraph × List NodeWire :=
  let g := acc.fst
  let ws := acc.snd ++ [dw]
  match findNode ns dw.fromNode, findNode ns dw.toNode with
  | some fr, some tn =>
    if fr.graphNodeId ≠ 0 ∧ tn.graphNodeId ≠ 0 then (addGraphConnection g fr tn, ws)
    else (g, ws)
  | _, _ => (g, ws)

/-- `NodeGraphCanvas::loadState`: clears the visual lists (the engine is
NOT cleared — the fixed lane nodes must survive), restores every node,
then replays every wire.  The id counter is not reset, only advanced. -/
def loadState (known : List PluginDescription)
    (inst : PluginDescription → Option Processor)
    (s : HostState) (doc : NodeGraphDoc) : HostState :=
  let t1 := doc.docNodes.foldl (loadOneNode known inst) (s.graph, [], s.nextId)
  let t2 := doc.docWires.foldl (loadOneWire t1.snd.fst) (t1.fst, [])
  { s with graph := t2.fst, nodes := t1.snd.fst, wires := t2.snd,
           nextId := t1.snd.snd }

/-- The processor of one of the two fixed lane nodes
(`AudioProcessorGraph::AudioGraphIOProcessor`). -/
def ioProcessor (nm : String) : Processor :=
  { descName := nm, descFormat := "Internal", descIdent := nm, state := "" }

/-- The engine graph as `IconMenu::loadActivePlugins` leaves it at process
startup: cleared, then the two fixed lane nodes added under the well-known
uids. -/
def initialEngine : EngineGraph :=
  (EngineGraph.addNodeWithId
    (EngineGraph.addNodeWithId ⟨[], [], 0⟩ (ioProcessor "audioInput") kInputNodeUID)
    (ioProcessor "audioOutput") kOutputNodeUID)

/-- The canvas as constructed, over the startup engine. -/
def initialState (w h : Int) : HostState :=
  { graph := initialEngine, nodes := [], wires := [], nextId := 1,
    selectedNode := -1, width := w, height := h }

/-- The wires currently entering node id `i`. -/
def wiresInto (ws : List NodeWire) (i : Int) : List NodeWire :=
  ws.filter (fun w => decide (w.toNode = i))

/-- Single-upstream invariant: at most one wire into any node. -/
def wiresOk (s : HostState) : Prop :=
  ∀ i : Int, (wiresInto s.wires i).length ≤ 1

/-- Canvas id invariant: live node ids are pairwise distinct and below the
counter. -/
def nodesIdsOk (s : HostState) : Prop :=
  (s.nodes.map (fun n => n.id)).Pairwise (fun a b => a ≠ b)
    ∧ ∀ i ∈ s.nodes.map (fun n => n.id), i < s.nextId

/-- Engine well-formedness maintained by juce: every node uid is at most
`lastNodeId` (so automatic assignment is fresh). -/
def engineIdsOk (g : EngineGraph) : Prop :=
  ∀ e ∈ g.engineNodes, e.fst ≤ g.lastNodeId

/-- A persisted document whose node ids are pairwise distinct (as any
`saveState` output of a well-formed canvas is). -/
def docIdsOk (d : NodeGraphDoc) : Prop :=
  (d.docNodes.map (fun n => n.id)).Pairwise (fun a b => a ≠ b)

/-- A persisted document with at most one wire into any node (as any
`saveState` output of a canvas satisfying the single-upstream invariant
is). -/
def docWiresOk (d : NodeGraphDoc) : Prop :=
  ∀ i : Int, (wiresInto d.docWires i).length ≤ 1

/-- One core mutation, as dispatched from the UI gestures: add a device
node, add a plugin node through the picker, commit a wire, delete a node,
disconnect a node, drag a node, or restore a persisted document (documents
are the core's own `saveState` outputs, hence well-formed). -/
inductive Step (known : List PluginDescription)
    (inst : PluginDescription → Option Processor) : HostState → HostState → Prop
  | addDevice (s : HostState) (name : String) (ty : NodeType) :
      Step known inst s (addNode s name ty)
  | addPlugin (s : HostState) (desc : PluginDescription) (r : Option Processor) :
      Step known inst s (showPluginPicker s desc r).fst
  | connectWire (s : HostState) (a b : Int) :
      Step known inst s (connect s a b)
  | deleteNode (s : HostState) (i : Int) :
      Step known inst s (removeNode s i)
  | disconnectAll (s : HostState) (i : Int) :
      Step known inst s (disconnectNode s i)
  | dragNode (s : HostState) (i ex ey : Int) :
      Step known inst s (mouseDragNode s i ex ey)
  | restore (s : HostState) (d : NodeGraphDoc) (hid : docIdsOk d) (hw : docWiresOk d) :
      Step known inst s (loadState known inst s d)

/-- Reachability along any sequence of core mutations. -/
def Reach (known : List PluginDescription)
    (inst : PluginDescription → Option Processor) : HostState → HostState → Prop :=
  Relation.ReflTransGen (Step known inst)

/-! ## Helper lemmas -/

lemma findNode_aux (i : Int) :
    ∀ (ns : List PluginNode) (acc : Option PluginNode),
    (∀ m, acc = some m → m.id = i) →
    ∀ n, ns.foldl (fun acc x => if x.id = i then some x else acc) acc = some n → n.id = i := by
  intro ns
  induction ns with
  | nil =>
    intro acc hacc n h
    exact hacc n h
  | cons x rest ih =>
    intro acc hacc n h
    simp only [List.foldl_cons] at h
    by_cases hx : x.id = i
    · refine ih _ ?_ n h
      intro m hm
      rw [if_pos hx] at hm
      cases hm
      exact hx
    · refine ih _ ?_ n h
      intro m hm
      rw [if_neg hx] at hm
      exact hacc m hm

lemma findNode_id {ns : List PluginNode} {i : Int} {n : PluginNode}
    (h : findNode ns i = some n) : n.id = i := by
  refine findNode_aux i ns none ?_ n h
  intro m hm
  cases hm

lemma findFirst_id {ns : List PluginNode} {i : Int} {n : PluginNode}
    (h : findFirst ns i = some n) : n.id = i := by
  have := List.find?_some h
  simpa using this

/-- First-match update: the image of the found node is a member of the
updated list. -/
lemma updateFirst_mem {ns : List PluginNode} {i : Int} {nd : PluginNode}
    (f : PluginNode → PluginNode) (h : findFirst ns i = some nd) :
    f nd ∈ updateFirst ns i f := by
  induction ns with
  | nil => simp [findFirst] at h
  | cons x rest ih =>
    by_cases hx : x.id = i
    · have hbeq : (decide (x.id = i)) = true := by simpa using hx
      have hx2 : nd = x := by
        simp [findFirst, List.find?_cons, hbeq] at h
        exact h.symm
      subst hx2
      simp [updateFirst, hx]
    · have hbeq : (decide (x.id = i)) = false := by simpa using hx
      have h2 : findFirst rest i = some nd := by
        simpa [findFirst, List.find?_cons, hbeq] using h
      simp only [updateFirst, if_neg hx]
      exact List.mem_cons_of_mem x (ih h2)

lemma getNodeForId_isSome_iff (g : EngineGraph) (u : Nat) :
    (g.getNodeForId u).isSome ↔ ∃ e ∈ g.engineNodes, e.fst = u := by
  unfold EngineGraph.getNodeForId
  cases hf : g.engineNodes.find? (fun e => decide (e.fst = u)) with
  | none =>
    simp only [Option.map_none', Option.isSome_none, Bool.false_eq_true, false_iff]
    rintro ⟨e, he, heq⟩
    have := List.find?_eq_none.mp hf e he
    simp [heq] at this
  | some e =>
    simp only [Option.map_some', Option.isSome_some, true_iff]
    exact ⟨e, List.mem_of_find?_eq_some hf, by simpa using List.find?_some hf⟩

/-! ## C5: connection validity -/

/-- Claim C5: `isValidWire` returns false for a self-loop, a missing
endpoint, an Output-kind source or an Input-kind sink, and true for every
other pair of existing nodes. -/
theorem C5_isValidWire :
    ∀ (ns : List PluginNode) (a b : Int),
    (a = b → isValidWire ns a b = false)
    ∧ (findNode ns a = none → isValidWire ns a b = false)
    ∧ (findNode ns b = none → isValidWire ns a b = false)
    ∧ (∀ fr, findNode ns a = some fr → fr.type = NodeType.Output →
        isValidWire ns a b = false)
    ∧ (∀ tn, findNode ns b = some tn → tn.type = NodeType.Input →
        isValidWire ns a b = false)
    ∧ (∀ fr tn, a ≠ b → findNode ns a = some fr → findNode ns b = some tn →
        fr.type ≠ NodeType.Output → tn.type ≠ NodeType.Input →
        isValidWire ns a b = true) := by
  intro ns a b
  refine ⟨?_, ?_, ?_, ?_, ?_, ?_⟩
  · intro h
    simp [isValidWire, h]
  · intro h
    by_cases hab : a = b
    · simp [isValidWire, hab]
    · simp [isValidWire, hab, h]
  · intro h
    by_cases hab : a = b
    · simp [isValidWire, hab]
    · cases hfa : findNode ns a <;> simp [isValidWire, hab, h, hfa]
  · intro fr hfa hty
    by_cases hab : a = b
    · simp [isValidWire, hab]
    · cases hfb : findNode ns b with
      | none => simp [isValidWire, hab, hfa, hfb]
      | some tn =>
        simp [isValidWire, hab, hfa, hfb, PluginNode.hasOutputPort, hty]
  · intro tn hfb hty
    by_cases hab : a = b
    · simp [isValidWire, hab]
    · cases hfa : findNode ns a with
      | none => simp [isValidWire, hab, hfa]
      | some fr =>
        simp [isValidWire, hab, hfa, hfb, PluginNode.hasInputPort, hty]
  · intro fr tn hab hfa hfb hfr htn
    simp [isValidWire, hab, hfa, hfb, PluginNode.hasOutputPort,
      PluginNode.hasInputPort, hfr, htn]

/-- Concrete node list for exercising `isValidWire`. -/
def c5nodes : List PluginNode :=
  [{ id := 1, type := NodeType.Input, name := "Mic", posX := 0, posY := 40,
     graphNodeId := kInputNodeUID },
   { id := 2, type := NodeType.Plugin, name := "Rev", posX := 300, posY := 100,
     graphNodeId := 1000002 }]

theorem C5_isValidWire_witness : isValidWire c5nodes 1 2 = true :=
  (C5_isValidWire c5nodes 1 2).2.2.2.2.2
    { id := 1, type := NodeType.Input, name := "Mic", posX := 0, posY := 40,
      graphNodeId := kInputNodeUID }
    { id := 2, type := NodeType.Plugin, name := "Rev", posX := 300, posY := 100,
      graphNodeId := 1000002 }
    (by decide) (by decide) (by decide) (by decide) (by decide)

/-! ## C9: addNode never binds an engine node for Plugin kind -/

/-- Claim C9: the public `addNode` appends a Plugin node with the null
engine id 0 (no instantiation, no engine mutation); only Input and Output
kinds are bound, to the fixed engine identities. -/
theorem C9_addNode_engine_binding :
    ∀ (s : HostState) (name : String),
    (addNode s name NodeType.Plugin).nodes
        = s.nodes ++ [{ id := s.nextId, type := NodeType.Plugin, name := name,
                        posX := 200, posY := 100, graphNodeId := 0 }]
    ∧ (∀ ty, (addNode s name ty).graph = s.graph)
    ∧ (∃ n, (addNode s name NodeType.Input).nodes = s.nodes ++ [n]
        ∧ n.graphNodeId = kInputNodeUID)
    ∧ (∃ n, (addNode s name NodeType.Output).nodes = s.nodes ++ [n]
        ∧ n.graphNodeId = kOutputNodeUID) := by
  intro s name
  refine ⟨by simp [addNode], fun ty => by cases ty <;> simp [addNode], ?_, ?_⟩
  · exact ⟨_, rfl, rfl⟩
  · exact ⟨_, rfl, rfl⟩

/-! ## C2: the fixed engine identities are removable (code bug) -/

/-- The canvas right after adding one Input device node at startup. -/
def c2state : HostState := addNode (initialState 800 600) "Mic" NodeType.Input

/-- Claim C2 fails on the code: deleting the canvas Input node removes the
fixed engine node 1000000 from the live engine graph (`removeNode` calls
`graph.removeNode` for any non-null `graphNodeId`, the fixed uids
included), contradicting the `loadState` comment that the fixed nodes must
remain in the graph. -/
theorem C2_fixed_engine_node_removed :
    (c2state.graph.getNodeForId kInputNodeUID).isSome = true
    ∧ (removeNode c2state 1).graph.getNodeForId kInputNodeUID = none := by
  exact ⟨by decide, by decide⟩

/-! ## C10: plugin drag clamping -/

/-- A one-plugin canvas whose component bounds are degenerate (width and
height 0). -/
def c10state : HostState :=
  { graph := initialEngine,
    nodes := [{ id := 1, type := NodeType.Plugin, name := "Rev", posX := 200, posY := 100,
                graphNodeId := 0 }],
    wires := [], nextId := 2, selectedNode := -1, width := 0, height := 0 }

/-- Claim C10 as stated is false: on a canvas narrower than
`2 * kZoneW + kW`, the dragged node's x coordinate (clamped to at least
`kZoneW`) exceeds `width - kZoneW - kW`. -/
theorem C10_counterexample :
    ¬ (∀ n ∈ (mouseDragNode c10state 1 0 0).nodes,
        n.posX ≤ c10state.width - kZoneW - kW) := by
  decide

/-- Claim C10 amended: whenever the canvas is at least `2 * kZoneW + kW`
wide and at least `kH` tall, every drag step leaves the dragged node
clamped to the centre zone and inside the canvas. -/
theorem C10_drag_clamped :
    ∀ (s : HostState) (i ex ey : Int) (nd : PluginNode),
    findFirst s.nodes i = some nd →
    2 * kZoneW + kW ≤ s.width → kH ≤ s.height →
    ∃ p ∈ (mouseDragNode s i ex ey).nodes,
      p.id = nd.id ∧ kZoneW ≤ p.posX ∧ p.posX ≤ s.width - kZoneW - kW
      ∧ 0 ≤ p.posY ∧ p.posY ≤ s.height - kH := by
  intro s i ex ey nd hf hw hh
  refine ⟨_, updateFirst_mem _ hf, rfl, ?_, ?_, ?_, ?_⟩
  · simp only [dragPos, kZoneW, kW, kH] at *
    omega
  · simp only [dragPos, kZoneW, kW, kH] at *
    omega
  · simp only [dragPos, kZoneW, kW, kH] at *
    omega
  · simp only [dragPos, kZoneW, kW, kH] at *
    omega

/-- A well-sized canvas holding the demo node list. -/
def c10wideState : HostState :=
  { graph := initialEngine, nodes := c5nodes, wires := [], nextId := 3,
    selectedNode := -1, width := 800, height := 600 }

/-- The demo plugin node of `c5nodes`. -/
def c10dragged : PluginNode :=
  { id := 2, type := NodeType.Plugin, name := "Rev", posX := 300, posY := 100,
    graphNodeId := 1000002 }

theorem C10_drag_clamped_witness :
    findFirst c10wideState.nodes 2 = some c10dragged
    ∧ ∃ p ∈ (mouseDragNode c10wideState 2 0 0).nodes,
        p.id = c10dragged.id ∧ kZoneW ≤ p.posX
        ∧ p.posX ≤ c10wideState.width - kZoneW - kW
        ∧ 0 ≤ p.posY ∧ p.posY ≤ c10wideState.height - kH :=
  ⟨by decide, C10_drag_clamped c10wideState 2 0 0 c10dragged (by decide) (by decide) (by decide)⟩

/-! ## C6: atomic plugin-node creation -/

lemma engineIdsOk_lookup_fresh {g : EngineGraph} (h : engineIdsOk g) :
    g.getNodeForId (g.lastNodeId + 1) = none := by
  rw [← Option.not_isSome_iff_eq_none]
  intro hs
  obtain ⟨e, he, heq⟩ := (getNodeForId_isSome_iff g (g.lastNodeId + 1)).mp hs
  have := h e he
  omega

lemma addNodeAuto_lookup_self {g : EngineGraph} (p : Processor) (h : engineIdsOk g) :
    (g.addNodeAuto p).fst.getNodeForId (g.addNodeAuto p).snd = some p := by
  unfold EngineGraph.addNodeAuto EngineGraph.getNodeForId
  simp only
  rw [List.find?_append]
  have hnone : g.engineNodes.find? (fun e => decide (e.fst = g.lastNodeId + 1)) = none := by
    rw [List.find?_eq_none]
    intro e he
    have := h e he
    simp only [decide_eq_true_eq]
    omega
  simp [hnone]

lemma addNodeAuto_lookup_mono {g : EngineGraph} {u : Nat} {p : Processor}
    (q : Processor) (h : g.getNodeForId u = some p) :
    (g.addNodeAuto q).fst.getNodeForId u = some p := by
  unfold EngineGraph.getNodeForId at h
  unfold EngineGraph.addNodeAuto EngineGraph.getNodeForId
  simp only
  rw [List.find?_append]
  cases hf : g.engineNodes.find? (fun e => decide (e.fst = u)) with
  | none => rw [hf] at h; simp at h
  | some e => rw [hf] at h; simpa using h

lemma addNodeAuto_engineIdsOk {g : EngineGraph} (p : Processor) (h : engineIdsOk g) :
    engineIdsOk (g.addNodeAuto p).fst := by
  intro e he
  unfold EngineGraph.addNodeAuto at he
  simp only [List.mem_append, List.mem_singleton] at he
  rcases he with he | he
  · have := h e he
    simp only [EngineGraph.addNodeAuto]
    omega
  · subst he
    simp [EngineGraph.addNodeAuto]

/-- Claim C6: adding a Plugin node is all-or-nothing.  On instantiation
failure an alert is surfaced and the state is exactly what it was; on
success a node with a fresh canvas id and a fresh engine node id is
appended, with no wire changes. -/
theorem C6_picker_atomic :
    ∀ (s : HostState) (desc : PluginDescription), engineIdsOk s.graph →
    showPluginPicker s desc none = (s, true)
    ∧ ∀ p, ∃ n,
        (showPluginPicker s desc (some p)).snd = false
        ∧ (showPluginPicker s desc (some p)).fst.nodes = s.nodes ++ [n]
        ∧ n.id = s.nextId ∧ n.type = NodeType.Plugin ∧ n.name = desc.name
        ∧ (showPluginPicker s desc (some p)).fst.wires = s.wires
        ∧ (showPluginPicker s desc (some p)).fst.nextId = s.nextId + 1
        ∧ s.graph.getNodeForId n.graphNodeId = none
        ∧ (showPluginPicker s desc (some p)).fst.graph.getNodeForId n.graphNodeId = some p := by
  intro s desc heng
  refine ⟨rfl, ?_⟩
  intro p
  refine ⟨_, rfl, rfl, rfl, rfl, rfl, rfl, rfl, ?_, ?_⟩
  · exact engineIdsOk_lookup_fresh heng
  · exact addNodeAuto_lookup_self p heng

theorem C6_picker_atomic_witness :
    engineIdsOk c10wideState.graph
    ∧ showPluginPicker c10wideState
        { name := "Rev", pluginFormatName := "VST", fileOrIdentifier := "rev.dll" } none
        = (c10wideState, true) :=
  ⟨by unfold engineIdsOk; decide,
   (C6_picker_atomic c10wideState
     { name := "Rev", pluginFormatName := "VST", fileOrIdentifier := "rev.dll" }
     (by unfold engineIdsOk; decide)).1⟩

/-! ## C7: node deletion cascades -/

/-- Claim C7: `removeNode(X)` removes every wire touching X, removes X,
clears the selection, and afterwards no engine connection references X's
former engine node id (given the engine-side facts juce maintains: every
connection endpoint is an existing engine node, and 0 is never a live
engine uid). -/
theorem C7_removeNode_cascade :
    ∀ (s : HostState) (x : Int) (nd : PluginNode),
    findFirst s.nodes x = some nd →
    (∀ c ∈ s.graph.connections,
      (∃ e ∈ s.graph.engineNodes, e.fst = c.srcNode)
        ∧ (∃ e ∈ s.graph.engineNodes, e.fst = c.dstNode)) →
    (∀ e ∈ s.graph.engineNodes, e.fst ≠ 0) →
    (removeNode s x).nodes = s.nodes.filter (fun n => decide (n.id ≠ x))
    ∧ (removeNode s x).wires
        = s.wires.filter (fun w => decide (¬ (w.fromNode = x ∨ w.toNode = x)))
    ∧ (removeNode s x).selectedNode = -1
    ∧ ∀ c ∈ (removeNode s x).graph.connections,
        c.srcNode ≠ nd.graphNodeId ∧ c.dstNode ≠ nd.graphNodeId := by
  intro s x nd hf hconn h0
  have hrw : removeNode s x
      = { s with
          graph :=
            if nd.graphNodeId ≠ 0 then
              if (s.graph.getNodeForId nd.graphNodeId).isSome then
                s.graph.removeNode nd.graphNodeId
              else s.graph
            else s.graph,
          nodes := s.nodes.filter (fun n => decide (n.id ≠ x)),
          wires := s.wires.filter
            (fun w => decide (¬ (w.fromNode = x ∨ w.toNode = x))),
          selectedNode := -1 } := by
    unfold removeNode
    rw [hf]
  rw [hrw]
  refine ⟨rfl, rfl, rfl, ?_⟩
  intro c hc
  by_cases hz : nd.graphNodeId ≠ 0
  · by_cases hs : (s.graph.getNodeForId nd.graphNodeId).isSome
    · rw [if_pos hz, if_pos hs] at hc
      unfold EngineGraph.removeNode at hc
      simp only [List.mem_filter, decide_eq_true_eq] at hc
      exact hc.2
    · rw [if_pos hz, if_neg hs] at hc
      have hcc := hconn c hc
      constructor
      · intro heq
        apply hs
        rw [getNodeForId_isSome_iff]
        obtain ⟨e, he, hee⟩ := hcc.1
        exact ⟨e, he, by rw [hee, heq]⟩
      · intro heq
        apply hs
        rw [getNodeForId_isSome_iff]
        obtain ⟨e, he, hee⟩ := hcc.2
        exact ⟨e, he, by rw [hee, heq]⟩
  · rw [if_neg hz] at hc
    push_neg at hz
    have hcc := hconn c hc
    constructor
    · intro heq
      obtain ⟨e, he, hee⟩ := hcc.1
      exact h0 e he (by rw [hee, heq, hz])
    · intro heq
      obtain ⟨e, he, hee⟩ := hcc.2
      exact h0 e he (by rw [hee, heq, hz])

/-- A two-device canvas with a committed wire from the input node to the
output node (two live engine connections). -/
def c7state : HostState := connect (addNode c2state "Spk" NodeType.Output) 1 2

/-- The input node of `c7state`. -/
def c7inputNode : PluginNode :=
  { id := 1, type := NodeType.Input, name := "Mic", posX := 0, posY := 40,
    graphNodeId := kInputNodeUID }

theorem C7_removeNode_cascade_witness :
    findFirst c7state.nodes 1 = some c7inputNode
    ∧ (∀ c ∈ c7state.graph.connections,
        (∃ e ∈ c7state.graph.engineNodes, e.fst = c.srcNode)
          ∧ (∃ e ∈ c7state.graph.engineNodes, e.fst = c.dstNode))
    ∧ (∀ e ∈ c7state.graph.engineNodes, e.fst ≠ 0)
    ∧ (∀ c ∈ (removeNode c7state 1).graph.connections,
        c.srcNode ≠ c7inputNode.graphNodeId ∧ c.dstNode ≠ c7inputNode.graphNodeId) :=
  ⟨by decide, by decide, by decide,
   (C7_removeNode_cascade c7state 1 c7inputNode (by decide) (by decide) (by decide)).2.2.2⟩

/-! ## Field-preservation lemmas for the mutation operations -/

lemma addNode_wires (s : HostState) (name : String) (ty : NodeType) :
    (addNode s name ty).wires = s.wires := rfl

lemma picker_wires (s : HostState) (desc : PluginDescription) (r : Option Processor) :
    (showPluginPicker s desc r).fst.wires = s.wires := by
  cases r <;> rfl

lemma mouseDragNode_wires (s : HostState) (i ex ey : Int) :
    (mouseDragNode s i ex ey).wires = s.wires := rfl

lemma mouseDragNode_nextId (s : HostState) (i ex ey : Int) :
    (mouseDragNode s i ex ey).nextId = s.nextId := rfl

lemma disconnectNode_nodes (s : HostState) (i : Int) :
    (disconnectNode s i).nodes = s.nodes := rfl

lemma disconnectNode_nextId (s : HostState) (i : Int) :
    (disconnectNode s i).nextId = s.nextId := rfl

lemma connect_invalid {s : HostState} {a b : Int}
    (h : isValidWire s.nodes a b = false) : connect s a b = s := by
  simp [connect, h]

lemma isValidWire_some {ns : List PluginNode} {a b : Int}
    (h : isValidWire ns a b = true) :
    ∃ A B, findNode ns a = some A ∧ findNode ns b = some B := by
  unfold isValidWire at h
  by_cases hab : a = b
  · rw [if_pos hab] at h
    exact Bool.noConfusion h
  · rw [if_neg hab] at h
    cases hfa : findNode ns a with
    | none =>
      cases hfb : findNode ns b with
      | none => rw [hfa, hfb] at h; exact Bool.noConfusion h
      | some B => rw [hfa, hfb] at h; exact Bool.noConfusion h
    | some A =>
      cases hfb : findNode ns b with
      | none => rw [hfa, hfb] at h; exact Bool.noConfusion h
      | some B => exact ⟨A, B, rfl, rfl⟩

lemma connect_nodes (s : HostState) (a b : Int) : (connect s a b).nodes = s.nodes := by
  cases h : isValidWire s.nodes a b with
  | false => simp [connect, h]
  | true =>
    cases hfa : findNode s.nodes a with
    | none => simp [connect, h, hfa]
    | some A =>
      cases hfb : findNode s.nodes b with
      | none => simp [connect, h, hfa, hfb]
      | some B => simp [connect, h, hfa, hfb, clearGraphInputConnections]

lemma connect_nextId (s : HostState) (a b : Int) : (connect s a b).nextId = s.nextId := by
  cases h : isValidWire s.nodes a b with
  | false => simp [connect, h]
  | true =>
    cases hfa : findNode s.nodes a with
    | none => simp [connect, h, hfa]
    | some A =>
      cases hfb : findNode s.nodes b with
      | none => simp [connect, h, hfa, hfb]
      | some B => simp [connect, h, hfa, hfb, clearGraphInputConnections]

lemma connect_wires_valid {s : HostState} {a b : Int} {A B : PluginNode}
    (h : isValidWire s.nodes a b = true)
    (hfa : findNode s.nodes a = some A) (hfb : findNode s.nodes b = some B) :
    (connect s a b).wires
      = s.wires.filter (fun w => decide (w.toNode ≠ b)) ++ [⟨a, b⟩] := by
  have hb : B.id = b := findNode_id hfb
  simp [connect, h, hfa, hfb, clearGraphInputConnections, hb]

lemma connect_graph_valid {s : HostState} {a b : Int} {A B : PluginNode}
    (h : isValidWire s.nodes a b = true)
    (hfa : findNode s.nodes a = some A) (hfb : findNode s.nodes b = some B) :
    (connect s a b).graph
      = addGraphConnection (s.wires.foldl (clearConnStep s.nodes B) s.graph) A B := by
  simp [connect, h, hfa, hfb, clearGraphInputConnections]

/-! ## wiresInto bookkeeping -/

lemma wiresInto_append (ws1 ws2 : List NodeWire) (i : Int) :
    wiresInto (ws1 ++ ws2) i = wiresInto ws1 i ++ wiresInto ws2 i := by
  simp [wiresInto, List.filter_append]

lemma wiresInto_filter_self (ws : List NodeWire) (b : Int) :
    wiresInto (ws.filter (fun w => decide (w.toNode ≠ b))) b = [] := by
  unfold wiresInto
  rw [List.filter_filter]
  rw [List.filter_eq_nil_iff]
  intro w _
  by_cases hw : w.toNode = b <;> simp [hw]

lemma wiresInto_filter_other {ws : List NodeWire} {b i : Int} (h : i ≠ b) :
    wiresInto (ws.filter (fun w => decide (w.toNode ≠ b))) i = wiresInto ws i := by
  unfold wiresInto
  rw [List.filter_filter]
  apply List.filter_congr
  intro w _
  by_cases hw : w.toNode = i
  · have hwb : w.toNode ≠ b := by rw [hw]; exact h
    simp [hw, hwb, h]
  · simp [hw]

lemma wiresInto_filter_le (ws : List NodeWire) (p : NodeWire → Bool) (i : Int) :
    (wiresInto (ws.filter p) i).length ≤ (wiresInto ws i).length := by
  unfold wiresInto
  refine List.Sublist.length_le ?_
  exact List.Sublist.filter _ (List.filter_sublist ws)

/-! ## Restore loop: wire list accumulation -/

lemma loadOneWire_snd (ns : List PluginNode) (acc : EngineGraph × List NodeWire)
    (dw : NodeWire) : (loadOneWire ns acc dw).snd = acc.snd ++ [dw] := by
  unfold loadOneWire
  cases findNode ns dw.fromNode with
  | none => rfl
  | some fr =>
    cases findNode ns dw.toNode with
    | none => rfl
    | some tn =>
      by_cases hz : fr.graphNodeId ≠ 0 ∧ tn.graphNodeId ≠ 0
      · simp [hz]
      · simp [hz]

lemma loadWires_snd (ns : List PluginNode) :
    ∀ (dws : List NodeWire) (g : EngineGraph) (ws : List NodeWire),
    (dws.foldl (loadOneWire ns) (g, ws)).snd = ws ++ dws := by
  intro dws
  induction dws with
  | nil => intro g ws; simp
  | cons dw rest ih =>
    intro g ws
    rw [List.foldl_cons]
    have hs : loadOneWire ns (g, ws) dw = ((loadOneWire ns (g, ws) dw).fst, ws ++ [dw]) := by
      have := loadOneWire_snd ns (g, ws) dw
      exact Prod.ext rfl this
    rw [hs, ih]
    simp

lemma loadState_wires (known : List PluginDescription)
    (inst : PluginDescription → Option Processor) (s : HostState) (d : NodeGraphDoc) :
    (loadState known inst s d).wires = d.docWires := by
  unfold loadState
  simp [loadWires_snd]

lemma removeNode_wires (s : HostState) (i : Int) :
    (removeNode s i).wires = s.wires
    ∨ (removeNode s i).wires
        = s.wires.filter (fun w => decide (¬ (w.fromNode = i ∨ w.toNode = i))) := by
  unfold removeNode
  cases findFirst s.nodes i with
  | none => exact Or.inl rfl
  | some nd => exact Or.inr rfl

/-! ## The single-incoming invariant is preserved by every mutation -/

lemma wiresOk_connect {s : HostState} (a b : Int) (h : wiresOk s) :
    wiresOk (connect s a b) := by
  cases hv : isValidWire s.nodes a b with
  | false => rw [connect_invalid hv]; exact h
  | true =>
    obtain ⟨A, B, hfa, hfb⟩ := isValidWire_some hv
    intro i
    rw [connect_wires_valid hv hfa hfb, wiresInto_append]
    by_cases hib : i = b
    · subst hib
      rw [wiresInto_filter_self]
      simp [wiresInto]
    · rw [wiresInto_filter_other hib]
      have hbi : ¬ b = i := fun hh => hib hh.symm
      have hone : wiresInto [(⟨a, b⟩ : NodeWire)] i = [] := by
        simp [wiresInto, hbi]
      rw [hone]
      simpa using h i

lemma wiresOk_step {known : List PluginDescription}
    {inst : PluginDescription → Option Processor} {s t : HostState}
    (h : wiresOk s) (hst : Step known inst s t) : wiresOk t := by
  cases hst with
  | addDevice name ty =>
    intro i
    rw [addNode_wires]
    exact h i
  | addPlugin desc r =>
    intro i
    rw [picker_wires]
    exact h i
  | connectWire a b => exact wiresOk_connect a b h
  | deleteNode i =>
    intro j
    rcases removeNode_wires s i with hrw | hrw <;> rw [hrw]
    · exact h j
    · exact le_trans (wiresInto_filter_le _ _ _) (h j)
  | disconnectAll i =>
    intro j
    exact le_trans (wiresInto_filter_le _ _ _) (h j)
  | dragNode i ex ey =>
    intro j
    rw [mouseDragNode_wires]
    exact h j
  | restore d hid hw =>
    intro j
    rw [loadState_wires]
    exact hw j

lemma wiresOk_reach {known : List PluginDescription}
    {inst : PluginDescription → Option Processor} {s t : HostState}
    (h : wiresOk s) (hr : Reach known inst s t) : wiresOk t := by
  induction hr with
  | refl => exact h
  | tail hab hbc ih => exact wiresOk_step ih hbc

/-! ## Engine connection membership lemmas -/

lemma removeConnection_not_mem (g : EngineGraph) (c : EngineConn) :
    c ∉ (g.removeConnection c).connections := by
  simp [EngineGraph.removeConnection, List.mem_filter]

lemma removeConnection_not_mem_of {g : EngineGraph} {c : EngineConn} (d : EngineConn)
    (h : c ∉ g.connections) : c ∉ (g.removeConnection d).connections := by
  intro hmem
  exact h (List.mem_filter.mp hmem).1

lemma removeGraphConnection_not_mem (g : EngineGraph) (fr tn : PluginNode) :
    EngineConn.mk fr.graphNodeId 0 tn.graphNodeId 0
        ∉ (removeGraphConnection g fr tn).connections
    ∧ EngineConn.mk fr.graphNodeId 1 tn.graphNodeId 1
        ∉ (removeGraphConnection g fr tn).connections := by
  constructor
  · exact removeConnection_not_mem_of _ (removeConnection_not_mem g _)
  · exact removeConnection_not_mem _ _

lemma addConnection_mem {g : EngineGraph} {c d : EngineConn}
    (h : c ∈ (g.addConnection d).fst.connections) : c ∈ g.connections ∨ c = d := by
  unfold EngineGraph.addConnection at h
  by_cases hcond : (g.getNodeForId d.srcNode).isSome ∧ (g.getNodeForId d.dstNode).isSome
      ∧ d.srcNode ≠ d.dstNode ∧ d ∉ g.connections
  · rw [if_pos hcond] at h
    simpa using h
  · rw [if_neg hcond] at h
    exact Or.inl h

lemma addGraphConnection_mem {g : EngineGraph} {fr tn : PluginNode} {c : EngineConn}
    (h : c ∈ (addGraphConnection g fr tn).connections) :
    c ∈ g.connections ∨ (c.srcNode = fr.graphNodeId ∧ c.dstNode = tn.graphNodeId) := by
  unfold addGraphConnection at h
  by_cases h1 : (g.getNodeForId fr.graphNodeId).isNone
  · rw [if_pos h1] at h
    exact Or.inl h
  · rw [if_neg h1] at h
    by_cases h2 : (g.getNodeForId tn.graphNodeId).isNone
    · rw [if_pos h2] at h
      exact Or.inl h
    · rw [if_neg h2] at h
      rcases addConnection_mem h with h3 | h3
      · rcases addConnection_mem h3 with h4 | h4
        · exact Or.inl h4
        · subst h4
          exact Or.inr ⟨rfl, rfl⟩
      · subst h3
        exact Or.inr ⟨rfl, rfl⟩

lemma clearConnStep_skip {ns : List PluginNode} {tn : PluginNode} {g : EngineGraph}
    {w : NodeWire} (h : w.toNode ≠ tn.id) : clearConnStep ns tn g w = g := by
  simp [clearConnStep, h]

lemma foldl_clearConnStep_skip {ns : List PluginNode} {tn : PluginNode} :
    ∀ (ws : List NodeWire) (g : EngineGraph),
    (∀ w ∈ ws, w.toNode ≠ tn.id) → ws.foldl (clearConnStep ns tn) g = g := by
  intro ws
  induction ws with
  | nil => intro g _; rfl
  | cons w rest ih =>
    intro g hall
    rw [List.foldl_cons, clearConnStep_skip (hall w (by simp))]
    exact ih g (fun x hx => hall x (by simp [hx]))

/-! ## The connect-supersedes-connect scenario -/

lemma connect_connect_scenario {s : HostState} {a b c : Int} {A B C : PluginNode}
    (h1 : isValidWire s.nodes a b = true) (h2 : isValidWire s.nodes c b = true)
    (hfa : findNode s.nodes a = some A) (hfb : findNode s.nodes b = some B)
    (hfc : findNode s.nodes c = some C) (hffa : findFirst s.nodes a = some A)
    (hgid : A.graphNodeId ≠ C.graphNodeId) :
    wiresInto (connect (connect s a b) c b).wires b = [⟨c, b⟩]
    ∧ EngineConn.mk A.graphNodeId 0 B.graphNodeId 0
        ∉ (connect (connect s a b) c b).graph.connections
    ∧ EngineConn.mk A.graphNodeId 1 B.graphNodeId 1
        ∉ (connect (connect s a b) c b).graph.connections := by
  have hn1 : (connect s a b).nodes = s.nodes := connect_nodes s a b
  have hw1 : (connect s a b).wires
      = s.wires.filter (fun w => decide (w.toNode ≠ b)) ++ [⟨a, b⟩] :=
    connect_wires_valid h1 hfa hfb
  have h2x : isValidWire (connect s a b).nodes c b = true := by rw [hn1]; exact h2
  have hfcx : findNode (connect s a b).nodes c = some C := by rw [hn1]; exact hfc
  have hfbx : findNode (connect s a b).nodes b = some B := by rw [hn1]; exact hfb
  have hBid : B.id = b := findNode_id hfb
  refine ⟨?_, ?_, ?_⟩
  · rw [connect_wires_valid h2x hfcx hfbx, wiresInto_append, wiresInto_filter_self]
    simp [wiresInto]
  all_goals {
    rw [connect_graph_valid h2x hfcx hfbx]
    intro hmem
    have hfold : (connect s a b).wires.foldl (clearConnStep (connect s a b).nodes B)
        (connect s a b).graph
        = removeGraphConnection (connect s a b).graph A B := by
      rw [hw1, List.foldl_append]
      have hskip : (s.wires.filter (fun w => decide (w.toNode ≠ b))).foldl
          (clearConnStep (connect s a b).nodes B) (connect s a b).graph
          = (connect s a b).graph := by
        refine foldl_clearConnStep_skip _ _ ?_
        intro w hwm
        have hwne : w.toNode ≠ b := by
          have := (List.mem_filter.mp hwm).2
          simpa using this
        rw [hBid]
        exact hwne
      rw [hskip]
      have hstep : clearConnStep (connect s a b).nodes B (connect s a b).graph ⟨a, b⟩
          = removeGraphConnection (connect s a b).graph A B := by
        unfold clearConnStep
        rw [if_pos (by simpa using hBid.symm)]
        rw [hn1, hffa]
      simpa using hstep
    rw [hfold] at hmem
    rcases addGraphConnection_mem hmem with hin | hsrc
    · have hnm := removeGraphConnection_not_mem (connect s a b).graph A B
      first
      | exact hnm.1 hin
      | exact hnm.2 hin
    · have hACeq : A.graphNodeId = C.graphNodeId := by simpa using hsrc.1
      exact hgid hACeq
  }

/-! ## C3: at most one incoming wire per node -/

/-- Claim C3: after every core operation, in any sequence, at most one
wire enters any node; `connect(A,B)` then `connect(C,B)` leaves exactly
the wire `(C,B)` with the `(A,B)` engine routes removed; a repeated
`connect(A,B)` leaves the single wire `(A,B)`. -/
theorem C3_single_incoming :
    (∀ w h, wiresOk (initialState w h))
    ∧ (∀ known inst s t, wiresOk s → Reach known inst s t → wiresOk t)
    ∧ (∀ s a b c A B C, isValidWire s.nodes a b = true →
        isValidWire s.nodes c b = true →
        findNode s.nodes a = some A → findNode s.nodes b = some B →
        findNode s.nodes c = some C → findFirst s.nodes a = some A →
        A.graphNodeId ≠ C.graphNodeId →
        wiresInto (connect (connect s a b) c b).wires b = [⟨c, b⟩]
        ∧ EngineConn.mk A.graphNodeId 0 B.graphNodeId 0
            ∉ (connect (connect s a b) c b).graph.connections
        ∧ EngineConn.mk A.graphNodeId 1 B.graphNodeId 1
            ∉ (connect (connect s a b) c b).graph.connections)
    ∧ (∀ s a b, isValidWire s.nodes a b = true →
        wiresInto (connect (connect s a b) a b).wires b = [⟨a, b⟩]) := by
  refine ⟨?_, ?_, ?_, ?_⟩
  · intro w h i
    simp [initialState, wiresInto]
  · intro known inst s t hok hr
    exact wiresOk_reach hok hr
  · intro s a b c A B C h1 h2 hfa hfb hfc hffa hgid
    exact connect_connect_scenario h1 h2 hfa hfb hfc hffa hgid
  · intro s a b h1
    obtain ⟨A, B, hfa, hfb⟩ := isValidWire_some h1
    have hn1 : (connect s a b).nodes = s.nodes := connect_nodes s a b
    have h1x : isValidWire (connect s a b).nodes a b = true := by rw [hn1]; exact h1
    have hfax : findNode (connect s a b).nodes a = some A := by rw [hn1]; exact hfa
    have hfbx : findNode (connect s a b).nodes b = some B := by rw [hn1]; exact hfb
    rw [connect_wires_valid h1x hfax hfbx, wiresInto_append, wiresInto_filter_self]
    simp [wiresInto]

/-- The plugin processor instance behind `c3state`. -/
def c3proc : Processor :=
  { descName := "Rev", descFormat := "VST", descIdent := "rev.dll", state := "b0" }

/-- A canvas with one Input, one Output and one Plugin node (engine uid
1000002 held by the engine). -/
def c3state : HostState :=
  { graph := (initialEngine.addNodeAuto c3proc).fst,
    nodes := [{ id := 1, type := NodeType.Input, name := "Mic", posX := 0, posY := 40,
                graphNodeId := kInputNodeUID },
              { id := 2, type := NodeType.Output, name := "Spk", posX := 630, posY := 40,
                graphNodeId := kOutputNodeUID },
              { id := 3, type := NodeType.Plugin, name := "Rev", posX := 300, posY := 100,
                graphNodeId := 1000002 }],
    wires := [], nextId := 4, selectedNode := -1, width := 800, height := 600 }

/-- The Input node of `c3state`. -/
def c3A : PluginNode :=
  { id := 1, type := NodeType.Input, name := "Mic", posX := 0, posY := 40,
    graphNodeId := kInputNodeUID }

/-- The Output node of `c3state`. -/
def c3B : PluginNode :=
  { id := 2, type := NodeType.Output, name := "Spk", posX := 630, posY := 40,
    graphNodeId := kOutputNodeUID }

/-- The Plugin node of `c3state`. -/
def c3C : PluginNode :=
  { id := 3, type := NodeType.Plugin, name := "Rev", posX := 300, posY := 100,
    graphNodeId := 1000002 }

theorem C3_single_incoming_witness :
    isValidWire c3state.nodes 1 2 = true
    ∧ isValidWire c3state.nodes 3 2 = true
    ∧ (wiresInto (connect (connect c3state 1 2) 3 2).wires 2 = [⟨3, 2⟩]
       ∧ EngineConn.mk c3A.graphNodeId 0 c3B.graphNodeId 0
           ∉ (connect (connect c3state 1 2) 3 2).graph.connections
       ∧ EngineConn.mk c3A.graphNodeId 1 c3B.graphNodeId 1
           ∉ (connect (connect c3state 1 2) 3 2).graph.connections) :=
  ⟨by decide, by decide,
   C3_single_incoming.2.2.1 c3state 1 2 3 c3A c3B c3C
     (by decide) (by decide) (by decide) (by decide) (by decide) (by decide) (by decide)⟩

/-! ## C8: monotone id allocation -/

lemma advanceId_le (nid i : Int) : nid ≤ advanceId nid i ∧ i < advanceId nid i := by
  unfold advanceId
  split <;> omega

lemma loadOneNode_parts (known : List PluginDescription)
    (inst : PluginDescription → Option Processor) (g : EngineGraph)
    (ns : List PluginNode) (nid : Int) (dn : DocNode) :
    ∃ gid, (loadOneNode known inst (g, ns, nid) dn).snd.fst = ns ++ [mkLoadedNode dn gid]
      ∧ (loadOneNode known inst (g, ns, nid) dn).snd.snd = advanceId nid dn.id := by
  by_cases h1 : intToNodeType dn.ty = NodeType.Input
  · exact ⟨kInputNodeUID, by simp [loadOneNode, h1], by simp [loadOneNode, h1]⟩
  · by_cases h2 : intToNodeType dn.ty = NodeType.Output
    · exact ⟨kOutputNodeUID, by simp [loadOneNode, h1, h2], by simp [loadOneNode, h1, h2]⟩
    · cases hi : inst (resolveDesc known dn) with
      | none => exact ⟨0, by simp [loadOneNode, h1, h2, hi], by simp [loadOneNode, h1, h2, hi]⟩
      | some p =>
        exact ⟨(g.addNodeAuto (restoreProcState p dn.pluginState)).snd,
          by simp [loadOneNode, h1, h2, hi], by simp [loadOneNode, h1, h2, hi]⟩

lemma loadNodes_ids (known : List PluginDescription)
    (inst : PluginDescription → Option Processor) :
    ∀ (dns : List DocNode) (g : EngineGraph) (ns : List PluginNode) (nid : Int),
    ((dns.foldl (loadOneNode known inst) (g, ns, nid)).snd.fst.map (fun n => n.id)
        = ns.map (fun n => n.id) ++ dns.map (fun d => d.id))
    ∧ nid ≤ (dns.foldl (loadOneNode known inst) (g, ns, nid)).snd.snd
    ∧ ((∀ n ∈ ns, n.id < nid) →
        ∀ n ∈ (dns.foldl (loadOneNode known inst) (g, ns, nid)).snd.fst,
          n.id < (dns.foldl (loadOneNode known inst) (g, ns, nid)).snd.snd) := by
  intro dns
  induction dns with
  | nil =>
    intro g ns nid
    exact ⟨by simp, le_refl _, fun hb n hn => hb n hn⟩
  | cons dn rest ih =>
    intro g ns nid
    obtain ⟨gid, hns, hnid⟩ := loadOneNode_parts known inst g ns nid dn
    have htup : loadOneNode known inst (g, ns, nid) dn
        = ((loadOneNode known inst (g, ns, nid) dn).fst,
           ns ++ [mkLoadedNode dn gid], advanceId nid dn.id) :=
      Prod.ext rfl (Prod.ext hns hnid)
    rw [List.foldl_cons, htup]
    obtain ⟨ih1, ih2, ih3⟩ := ih (loadOneNode known inst (g, ns, nid) dn).fst
      (ns ++ [mkLoadedNode dn gid]) (advanceId nid dn.id)
    refine ⟨?_, ?_, ?_⟩
    · rw [ih1]
      simp [mkLoadedNode]
    · exact le_trans (advanceId_le nid dn.id).1 ih2
    · intro hb
      refine ih3 ?_
      intro n hn
      rcases List.mem_append.mp hn with hn1 | hn1
      · exact lt_of_lt_of_le (hb n hn1) (advanceId_le nid dn.id).1
      · have hn2 : n = mkLoadedNode dn gid := by simpa using hn1
        subst hn2
        exact (advanceId_le nid dn.id).2

lemma loadState_nodes_map (known : List PluginDescription)
    (inst : PluginDescription → Option Processor) (s : HostState) (d : NodeGraphDoc) :
    (loadState known inst s d).nodes.map (fun n => n.id)
      = d.docNodes.map (fun dd => dd.id) := by
  have h := (loadNodes_ids known inst d.docNodes s.graph [] s.nextId).1
  simpa [loadState] using h

lemma loadState_ids_bound (known : List PluginDescription)
    (inst : PluginDescription → Option Processor) (s : HostState) (d : NodeGraphDoc) :
    ∀ n ∈ (loadState known inst s d).nodes, n.id < (loadState known inst s d).nextId := by
  have h := (loadNodes_ids known inst d.docNodes s.graph [] s.nextId).2.2
  have hb : ∀ x ∈ ([] : List PluginNode), x.id < s.nextId := by
    intro x hx
    cases hx
  intro n hn
  exact h hb n (by simpa [loadState] using hn)

lemma addNode_nextId (s : HostState) (name : String) (ty : NodeType) :
    (addNode s name ty).nextId = s.nextId + 1 := rfl

lemma addNode_ids_map (s : HostState) (name : String) (ty : NodeType) :
    (addNode s name ty).nodes.map (fun n => n.id)
      = s.nodes.map (fun n => n.id) ++ [s.nextId] := by
  cases ty <;> simp [addNode]

lemma picker_nextId (s : HostState) (desc : PluginDescription) (p : Processor) :
    ((showPluginPicker s desc (some p)).fst).nextId = s.nextId + 1 := rfl

lemma picker_ids_map (s : HostState) (desc : PluginDescription) (p : Processor) :
    ((showPluginPicker s desc (some p)).fst).nodes.map (fun n => n.id)
      = s.nodes.map (fun n => n.id) ++ [s.nextId] := by
  simp [showPluginPicker]

lemma nodesIdsOk_append_fresh {s : HostState} (h : nodesIdsOk s)
    {t : HostState}
    (hmap : t.nodes.map (fun n => n.id) = s.nodes.map (fun n => n.id) ++ [s.nextId])
    (hnid : t.nextId = s.nextId + 1) : nodesIdsOk t := by
  constructor
  · rw [hmap, List.pairwise_append]
    refine ⟨h.1, by simp, ?_⟩
    intro a ha bb hbb
    have hbb2 : bb = s.nextId := by simpa using hbb
    subst hbb2
    have := h.2 a ha
    omega
  · rw [hmap, hnid]
    intro i hi
    rcases List.mem_append.mp hi with hi1 | hi1
    · have := h.2 i hi1
      omega
    · have hi2 : i = s.nextId := by simpa using hi1
      omega

lemma nodesIdsOk_of_fields {s t : HostState} (hn : t.nodes = s.nodes)
    (hi : t.nextId = s.nextId) (h : nodesIdsOk s) : nodesIdsOk t := by
  unfold nodesIdsOk
  rw [hn, hi]
  exact h

lemma updateFirst_map_id (ns : List PluginNode) (i : Int) (f : PluginNode → PluginNode)
    (hf : ∀ n, (f n).id = n.id) :
    (updateFirst ns i f).map (fun n => n.id) = ns.map (fun n => n.id) := by
  induction ns with
  | nil => rfl
  | cons x rest ih =>
    by_cases hx : x.id = i
    · simp [updateFirst, hx, hf]
    · simp [updateFirst, hx, ih]

lemma removeNode_nextId (s : HostState) (i : Int) :
    (removeNode s i).nextId = s.nextId := by
  unfold removeNode
  cases findFirst s.nodes i with
  | none => rfl
  | some nd => rfl

lemma removeNode_nodes (s : HostState) (i : Int) :
    (removeNode s i).nodes = s.nodes
    ∨ (removeNode s i).nodes = s.nodes.filter (fun n => decide (n.id ≠ i)) := by
  unfold removeNode
  cases findFirst s.nodes i with
  | none => exact Or.inl rfl
  | some nd => exact Or.inr rfl

lemma nodesIdsOk_step {known : List PluginDescription}
    {inst : PluginDescription → Option Processor} {s t : HostState}
    (h : nodesIdsOk s) (hst : Step known inst s t) : nodesIdsOk t := by
  cases hst with
  | addDevice name ty =>
    exact nodesIdsOk_append_fresh h (addNode_ids_map s name ty) (addNode_nextId s name ty)
  | addPlugin desc r =>
    cases r with
    | none => exact h
    | some p =>
      exact nodesIdsOk_append_fresh h (picker_ids_map s desc p) (picker_nextId s desc p)
  | connectWire a b =>
    exact nodesIdsOk_of_fields (connect_nodes s a b) (connect_nextId s a b) h
  | deleteNode i =>
    rcases removeNode_nodes s i with hrn | hrn
    · exact nodesIdsOk_of_fields hrn (removeNode_nextId s i) h
    · have hsub : (List.map (fun n => n.id)
            (List.filter (fun n => decide (n.id ≠ i)) s.nodes)).Sublist
          (List.map (fun n => n.id) s.nodes) :=
        List.Sublist.map (fun n => n.id) (List.filter_sublist s.nodes)
      constructor
      · rw [hrn]
        exact List.Pairwise.sublist hsub h.1
      · rw [hrn, removeNode_nextId]
        intro i2 hi2
        exact h.2 i2 (hsub.subset hi2)
  | disconnectAll i =>
    exact nodesIdsOk_of_fields (disconnectNode_nodes s i) (disconnectNode_nextId s i) h
  | dragNode i ex ey =>
    have hmap : (mouseDragNode s i ex ey).nodes.map (fun n => n.id)
        = s.nodes.map (fun n => n.id) := by
      simp only [mouseDragNode]
      exact updateFirst_map_id _ _ _ (fun n => rfl)
    constructor
    · rw [hmap]
      exact h.1
    · intro i2 hi2
      rw [hmap] at hi2
      have hni : (mouseDragNode s i ex ey).nextId = s.nextId := rfl
      rw [hni]
      exact h.2 i2 hi2
  | restore d hid hw =>
    constructor
    · rw [loadState_nodes_map]
      exact hid
    · intro i2 hi2
      obtain ⟨n, hn, hni⟩ := List.mem_map.mp hi2
      rw [← hni]
      exact loadState_ids_bound known inst s d n hn

lemma nodesIdsOk_reach {known : List PluginDescription}
    {inst : PluginDescription → Option Processor} {s t : HostState}
    (h : nodesIdsOk s) (hr : Reach known inst s t) : nodesIdsOk t := by
  induction hr with
  | refl => exact h
  | tail hab hbc ih => exact nodesIdsOk_step ih hbc

/-- Claim C8: canvas ids come from a strictly increasing counter seeded at
1: every `addNode` and every successful picker creation assigns the
current counter value and increments it, `loadState` leaves the counter
strictly above every restored id, and along any operation sequence (from a
state with distinct ids below the counter, as at startup) no two live
nodes share an id. -/
theorem C8_monotonic_ids :
    (∀ w h, (initialState w h).nextId = 1)
    ∧ (∀ s name ty, (addNode s name ty).nextId = s.nextId + 1
        ∧ (addNode s name ty).nodes.map (fun n => n.id)
            = s.nodes.map (fun n => n.id) ++ [s.nextId])
    ∧ (∀ s desc p, ((showPluginPicker s desc (some p)).fst).nextId = s.nextId + 1
        ∧ ((showPluginPicker s desc (some p)).fst).nodes.map (fun n => n.id)
            = s.nodes.map (fun n => n.id) ++ [s.nextId])
    ∧ (∀ known inst s d, ∀ n ∈ (loadState known inst s d).nodes,
        n.id < (loadState known inst s d).nextId)
    ∧ (∀ w h, nodesIdsOk (initialState w h))
    ∧ (∀ known inst s t, nodesIdsOk s → Reach known inst s t →
        (t.nodes.map (fun n => n.id)).Pairwise (fun a b => a ≠ b)) := by
  refine ⟨fun w h => rfl, ?_, ?_, ?_, ?_, ?_⟩
  · intro s name ty
    exact ⟨addNode_nextId s name ty, addNode_ids_map s name ty⟩
  · intro s desc p
    exact ⟨picker_nextId s desc p, picker_ids_map s desc p⟩
  · intro known inst s d
    exact loadState_ids_bound known inst s d
  · intro w h
    constructor
    · simp [initialState]
    · intro i hi
      simp [initialState] at hi
  · intro known inst s t h hr
    exact (nodesIdsOk_reach h hr).1

/-- The canvas after one device add at startup. -/
def c8s1 : HostState := addNode (initialState 800 600) "Mic" NodeType.Input

/-- The document `saveState` emits for `c8s1`. -/
def c8doc : NodeGraphDoc := saveState c8s1

/-- `c8s1` reloaded from its own persisted document. -/
def c8s2 : HostState := loadState [] (fun _ => none) c8s1 c8doc

theorem C8_monotonic_ids_witness :
    nodesIdsOk (initialState 800 600)
    ∧ (c8s2.nodes.map (fun n => n.id)).Pairwise (fun a b => a ≠ b) := by
  have h0 : nodesIdsOk (initialState 800 600) := by
    constructor
    · simp [initialState]
    · intro i hi
      simp [initialState] at hi
  have hid : docIdsOk c8doc := by
    unfold docIdsOk
    decide
  have hw : docWiresOk c8doc := by
    intro i
    have hwn : c8doc.docWires = [] := rfl
    rw [hwn]
    simp [wiresInto]
  have hr : Reach [] (fun _ => none) (initialState 800 600) c8s2 :=
    Relation.ReflTransGen.tail
      (Relation.ReflTransGen.tail Relation.ReflTransGen.refl
        (Step.addDevice (initialState 800 600) "Mic" NodeType.Input))
      (Step.restore c8s1 c8doc hid hw)
  exact ⟨h0, C8_monotonic_ids.2.2.2.2.2 [] (fun _ => none) (initialState 800 600) c8s2 h0 hr⟩

/-! ## Restore loop: graph-side characterisation -/

lemma addNodeAuto_connections (g : EngineGraph) (q : Processor) :
    (g.addNodeAuto q).fst.connections = g.connections := rfl

lemma loadOneNode_graph_shape (known : List PluginDescription)
    (inst : PluginDescription → Option Processor) (g : EngineGraph)
    (ns : List PluginNode) (nid : Int) (dn : DocNode) :
    (loadOneNode known inst (g, ns, nid) dn).fst = g
    ∨ ∃ q, (loadOneNode known inst (g, ns, nid) dn).fst = (g.addNodeAuto q).fst := by
  by_cases h1 : intToNodeType dn.ty = NodeType.Input
  · exact Or.inl (by simp [loadOneNode, h1])
  · by_cases h2 : intToNodeType dn.ty = NodeType.Output
    · exact Or.inl (by simp [loadOneNode, h1, h2])
    · cases hi : inst (resolveDesc known dn) with
      | none => exact Or.inl (by simp [loadOneNode, h1, h2, hi])
      | some p =>
        exact Or.inr ⟨restoreProcState p dn.pluginState, by simp [loadOneNode, h1, h2, hi]⟩

lemma loadNodes_graph (known : List PluginDescription)
    (inst : PluginDescription → Option Processor) :
    ∀ (dns : List DocNode) (g : EngineGraph) (ns : List PluginNode) (nid : Int),
    ((dns.foldl (loadOneNode known inst) (g, ns, nid)).fst.connections = g.connections)
    ∧ (engineIdsOk g → engineIdsOk (dns.foldl (loadOneNode known inst) (g, ns, nid)).fst)
    ∧ (∀ u p, g.getNodeForId u = some p →
        (dns.foldl (loadOneNode known inst) (g, ns, nid)).fst.getNodeForId u = some p) := by
  intro dns
  induction dns with
  | nil =>
    intro g ns nid
    exact ⟨rfl, fun h => h, fun u p h => h⟩
  | cons dn rest ih =>
    intro g ns nid
    obtain ⟨gid, hns, hnid⟩ := loadOneNode_parts known inst g ns nid dn
    have htup : loadOneNode known inst (g, ns, nid) dn
        = ((loadOneNode known inst (g, ns, nid) dn).fst,
           ns ++ [mkLoadedNode dn gid], advanceId nid dn.id) :=
      Prod.ext rfl (Prod.ext hns hnid)
    rw [List.foldl_cons, htup]
    rcases loadOneNode_graph_shape known inst g ns nid dn with hg | ⟨q, hg⟩
    · rw [hg]
      exact ih g (ns ++ [mkLoadedNode dn gid]) (advanceId nid dn.id)
    · rw [hg]
      obtain ⟨ihc, ihw, ihm⟩ := ih (g.addNodeAuto q).fst
        (ns ++ [mkLoadedNode dn gid]) (advanceId nid dn.id)
      refine ⟨?_, ?_, ?_⟩
      · rw [ihc]
        exact addNodeAuto_connections g q
      · intro hok
        exact ihw (addNodeAuto_engineIdsOk q hok)
      · intro u p hl
        exact ihm u p (addNodeAuto_lookup_mono q hl)

/-- What `loadState` guarantees for each restored node relative to its
document element, phrased against the engine graph after the whole node
loop. -/
def LoadedNodeRel (known : List PluginDescription)
    (inst : PluginDescription → Option Processor) (gF : EngineGraph)
    (dn : DocNode) (n : PluginNode) : Prop :=
  n.id = dn.id ∧ n.type = intToNodeType dn.ty ∧ n.name = dn.name
  ∧ n.posX = dn.x ∧ n.posY = dn.y
  ∧ (intToNodeType dn.ty = NodeType.Plugin →
      ((inst (resolveDesc known dn) = none → n.graphNodeId = 0)
       ∧ (∀ p, inst (resolveDesc known dn) = some p →
           n.graphNodeId ≠ 0
           ∧ gF.getNodeForId n.graphNodeId
               = some (restoreProcState p dn.pluginState))))

lemma loadNodes_rel (known : List PluginDescription)
    (inst : PluginDescription → Option Processor) :
    ∀ (dns : List DocNode) (g : EngineGraph) (ns : List PluginNode) (nid : Int),
    engineIdsOk g →
    ∃ new, (dns.foldl (loadOneNode known inst) (g, ns, nid)).snd.fst = ns ++ new
      ∧ List.Forall₂
          (LoadedNodeRel known inst (dns.foldl (loadOneNode known inst) (g, ns, nid)).fst)
          dns new := by
  intro dns
  induction dns with
  | nil =>
    intro g ns nid hids
    exact ⟨[], by simp, List.Forall₂.nil⟩
  | cons dn rest ih =>
    intro g ns nid hids
    by_cases h1 : intToNodeType dn.ty = NodeType.Input
    · have hstep : loadOneNode known inst (g, ns, nid) dn
          = (g, ns ++ [mkLoadedNode dn kInputNodeUID], advanceId nid dn.id) := by
        simp [loadOneNode, h1]
      rw [List.foldl_cons, hstep]
      obtain ⟨new, hnew, hrel⟩ :=
        ih g (ns ++ [mkLoadedNode dn kInputNodeUID]) (advanceId nid dn.id) hids
      refine ⟨mkLoadedNode dn kInputNodeUID :: new, by rw [hnew]; simp, ?_⟩
      refine List.Forall₂.cons ⟨rfl, rfl, rfl, rfl, rfl, ?_⟩ hrel
      intro hp
      rw [h1] at hp
      cases hp
    · by_cases h2 : intToNodeType dn.ty = NodeType.Output
      · have hstep : loadOneNode known inst (g, ns, nid) dn
            = (g, ns ++ [mkLoadedNode dn kOutputNodeUID], advanceId nid dn.id) := by
          simp [loadOneNode, h1, h2]
        rw [List.foldl_cons, hstep]
        obtain ⟨new, hnew, hrel⟩ :=
          ih g (ns ++ [mkLoadedNode dn kOutputNodeUID]) (advanceId nid dn.id) hids
        refine ⟨mkLoadedNode dn kOutputNodeUID :: new, by rw [hnew]; simp, ?_⟩
        refine List.Forall₂.cons ⟨rfl, rfl, rfl, rfl, rfl, ?_⟩ hrel
        intro hp
        rw [h2] at hp
        cases hp
      · cases hi : inst (resolveDesc known dn) with
        | none =>
          have hstep : loadOneNode known inst (g, ns, nid) dn
              = (g, ns ++ [mkLoadedNode dn 0], advanceId nid dn.id) := by
            simp [loadOneNode, h1, h2, hi]
          rw [List.foldl_cons, hstep]
          obtain ⟨new, hnew, hrel⟩ :=
            ih g (ns ++ [mkLoadedNode dn 0]) (advanceId nid dn.id) hids
          refine ⟨mkLoadedNode dn 0 :: new, by rw [hnew]; simp, ?_⟩
          refine List.Forall₂.cons ⟨rfl, rfl, rfl, rfl, rfl, ?_⟩ hrel
          intro hp
          refine ⟨fun _ => rfl, ?_⟩
          intro p2 hp2
          rw [hi] at hp2
          cases hp2
        | some p =>
          have hstep : loadOneNode known inst (g, ns, nid) dn
              = ((g.addNodeAuto (restoreProcState p dn.pluginState)).fst,
                 ns ++ [mkLoadedNode dn
                   (g.addNodeAuto (restoreProcState p dn.pluginState)).snd],
                 advanceId nid dn.id) := by
            simp [loadOneNode, h1, h2, hi]
          rw [List.foldl_cons, hstep]
          have hids2 : engineIdsOk (g.addNodeAuto (restoreProcState p dn.pluginState)).fst :=
            addNodeAuto_engineIdsOk _ hids
          obtain ⟨new, hnew, hrel⟩ :=
            ih (g.addNodeAuto (restoreProcState p dn.pluginState)).fst
              (ns ++ [mkLoadedNode dn (g.addNodeAuto (restoreProcState p dn.pluginState)).snd])
              (advanceId nid dn.id) hids2
          refine ⟨mkLoadedNode dn (g.addNodeAuto (restoreProcState p dn.pluginState)).snd :: new,
            by rw [hnew]; simp, ?_⟩
          refine List.Forall₂.cons ⟨rfl, rfl, rfl, rfl, rfl, ?_⟩ hrel
          intro hp
          constructor
          · intro hnone
            rw [hi] at hnone
            cases hnone
          · intro p2 hp2
            rw [hi] at hp2
            injection hp2 with hp3
            subst hp3
            constructor
            · show (g.addNodeAuto (restoreProcState p dn.pluginState)).snd ≠ 0
              simp [EngineGraph.addNodeAuto]
            · have hl1 : (g.addNodeAuto (restoreProcState p dn.pluginState)).fst.getNodeForId
                  (g.addNodeAuto (restoreProcState p dn.pluginState)).snd
                  = some (restoreProcState p dn.pluginState) :=
                addNodeAuto_lookup_self _ hids
              exact (loadNodes_graph known inst rest
                (g.addNodeAuto (restoreProcState p dn.pluginState)).fst
                (ns ++ [mkLoadedNode dn
                  (g.addNodeAuto (restoreProcState p dn.pluginState)).snd])
                (advanceId nid dn.id)).2.2 _ _ hl1

/-! ## Wire replay: connection and node-table characterisation -/

lemma addConnection_engineNodes (g : EngineGraph) (c : EngineConn) :
    (g.addConnection c).fst.engineNodes = g.engineNodes := by
  unfold EngineGraph.addConnection
  split <;> rfl

lemma addGraphConnection_engineNodes (g : EngineGraph) (fr tn : PluginNode) :
    (addGraphConnection g fr tn).engineNodes = g.engineNodes := by
  unfold addGraphConnection
  by_cases h1 : (g.getNodeForId fr.graphNodeId).isNone
  · rw [if_pos h1]
  · rw [if_neg h1]
    by_cases h2 : (g.getNodeForId tn.graphNodeId).isNone
    · rw [if_pos h2]
    · rw [if_neg h2]
      rw [addConnection_engineNodes, addConnection_engineNodes]

lemma loadOneWire_engineNodes (ns : List PluginNode) (acc : EngineGraph × List NodeWire)
    (dw : NodeWire) : (loadOneWire ns acc dw).fst.engineNodes = acc.fst.engineNodes := by
  unfold loadOneWire
  cases findNode ns dw.fromNode with
  | none => rfl
  | some fr =>
    cases findNode ns dw.toNode with
    | none => rfl
    | some tn =>
      show (if fr.graphNodeId ≠ 0 ∧ tn.graphNodeId ≠ 0
          then (addGraphConnection acc.fst fr tn, acc.snd ++ [dw])
          else (acc.fst, acc.snd ++ [dw])).fst.engineNodes = acc.fst.engineNodes
      by_cases hz : fr.graphNodeId ≠ 0 ∧ tn.graphNodeId ≠ 0
      · rw [if_pos hz]
        exact addGraphConnection_engineNodes _ _ _
      · rw [if_neg hz]

lemma loadWires_engineNodes (ns : List PluginNode) :
    ∀ (dws : List NodeWire) (g : EngineGraph) (ws : List NodeWire),
    (dws.foldl (loadOneWire ns) (g, ws)).fst.engineNodes = g.engineNodes := by
  intro dws
  induction dws with
  | nil => intro g ws; rfl
  | cons dw rest ih =>
    intro g ws
    have htup : loadOneWire ns (g, ws) dw
        = ((loadOneWire ns (g, ws) dw).fst, ws ++ [dw]) :=
      Prod.ext rfl (loadOneWire_snd ns (g, ws) dw)
    rw [List.foldl_cons, htup, ih]
    exact loadOneWire_engineNodes ns (g, ws) dw

lemma loadOneWire_conns (ns : List PluginNode) (acc : EngineGraph × List NodeWire)
    (dw : NodeWire) :
    ∀ c ∈ (loadOneWire ns acc dw).fst.connections,
      c ∈ acc.fst.connections ∨ (c.srcNode ≠ 0 ∧ c.dstNode ≠ 0) := by
  intro c hc
  unfold loadOneWire at hc
  cases hfr : findNode ns dw.fromNode with
  | none =>
    rw [hfr] at hc
    exact Or.inl hc
  | some fr =>
    rw [hfr] at hc
    cases htn : findNode ns dw.toNode with
    | none =>
      rw [htn] at hc
      exact Or.inl hc
    | some tn =>
      rw [htn] at hc
      have hc2 : c ∈ (if fr.graphNodeId ≠ 0 ∧ tn.graphNodeId ≠ 0
          then (addGraphConnection acc.fst fr tn, acc.snd ++ [dw])
          else (acc.fst, acc.snd ++ [dw])).fst.connections := hc
      by_cases hz : fr.graphNodeId ≠ 0 ∧ tn.graphNodeId ≠ 0
      · rw [if_pos hz] at hc2
        rcases addGraphConnection_mem hc2 with hin | ⟨hsrc, hdst⟩
        · exact Or.inl hin
        · refine Or.inr ⟨?_, ?_⟩
          · rw [hsrc]
            exact hz.1
          · rw [hdst]
            exact hz.2
      · rw [if_neg hz] at hc2
        exact Or.inl hc2

lemma loadWires_conns (ns : List PluginNode) :
    ∀ (dws : List NodeWire) (g : EngineGraph) (ws : List NodeWire),
    ∀ c ∈ (dws.foldl (loadOneWire ns) (g, ws)).fst.connections,
      c ∈ g.connections ∨ (c.srcNode ≠ 0 ∧ c.dstNode ≠ 0) := by
  intro dws
  induction dws with
  | nil =>
    intro g ws c hc
    exact Or.inl hc
  | cons dw rest ih =>
    intro g ws c hc
    have htup : loadOneWire ns (g, ws) dw
        = ((loadOneWire ns (g, ws) dw).fst, ws ++ [dw]) :=
      Prod.ext rfl (loadOneWire_snd ns (g, ws) dw)
    rw [List.foldl_cons, htup] at hc
    rcases ih (loadOneWire ns (g, ws) dw).fst (ws ++ [dw]) c hc with hin | hnz
    · exact loadOneWire_conns ns (g, ws) dw c hin
    · exact Or.inr hnz

lemma getNodeForId_eq_of_engineNodes {g1 g2 : EngineGraph}
    (h : g1.engineNodes = g2.engineNodes) (u : Nat) :
    g1.getNodeForId u = g2.getNodeForId u := by
  unfold EngineGraph.getNodeForId
  rw [h]

/-! ## C1: load-time plugin failure handling -/

/-- A persisted document with an Input node, a Plugin node whose identity
is no longer instantiable, and a wire between them. -/
def c1doc : NodeGraphDoc :=
  { docNodes := [{ id := 1, ty := 0, name := "In", x := 0, y := 40,
                   pluginName := "", pluginFormat := "", pluginIdent := "",
                   pluginState := none },
                 { id := 2, ty := 2, name := "Gone", x := 300, y := 100,
                   pluginName := "Gone", pluginFormat := "VST", pluginIdent := "gone.dll",
                   pluginState := some "abc" }],
    docWires := [⟨1, 2⟩] }

/-- Claim C1 fails on the code: loading `c1doc` with an instantiation
service that fails keeps the failed Plugin node in the rebuilt node list
(bound to the null engine id 0) and keeps the wire referencing it in the
rebuilt wire list — the node is not skipped and the wire is not dropped. -/
theorem C1_counterexample :
    ((loadState [] (fun _ => none) (initialState 800 600) c1doc).nodes.map
        (fun n => (n.id, n.graphNodeId)) = [(1, kInputNodeUID), (2, 0)])
    ∧ (loadState [] (fun _ => none) (initialState 800 600) c1doc).wires = [⟨1, 2⟩] :=
  ⟨by decide, by decide⟩

/-- Claim C1 amended: on load every document node is rebuilt (order,
id, kind, name and position intact); a Plugin node whose instantiation
fails stays in the node list with the null engine id 0, and every wire is
kept in the wire list; however no engine connection is ever created for
the failed node — every connection added during load has two non-null
engine endpoints (the wire replay skips wires whose endpoint has engine
id 0). -/
theorem C1_load_failed_plugin :
    ∀ (known : List PluginDescription) (inst : PluginDescription → Option Processor)
      (s : HostState) (doc : NodeGraphDoc),
    engineIdsOk s.graph →
    List.Forall₂ (fun dn n => n.id = dn.id ∧ n.type = intToNodeType dn.ty
        ∧ n.name = dn.name ∧ n.posX = dn.x ∧ n.posY = dn.y
        ∧ (intToNodeType dn.ty = NodeType.Plugin → inst (resolveDesc known dn) = none →
            n.graphNodeId = 0))
      doc.docNodes (loadState known inst s doc).nodes
    ∧ (loadState known inst s doc).wires = doc.docWires
    ∧ (∀ c ∈ (loadState known inst s doc).graph.connections,
        c ∈ s.graph.connections ∨ (c.srcNode ≠ 0 ∧ c.dstNode ≠ 0)) := by
  intro known inst s doc hids
  obtain ⟨new, hnew, hrel⟩ := loadNodes_rel known inst doc.docNodes s.graph [] s.nextId hids
  refine ⟨?_, loadState_wires known inst s doc, ?_⟩
  · have hnodes : (loadState known inst s doc).nodes
        = (doc.docNodes.foldl (loadOneNode known inst) (s.graph, [], s.nextId)).snd.fst := rfl
    rw [hnodes, hnew]
    simp only [List.nil_append]
    refine List.Forall₂.imp ?_ hrel
    intro dn n hr2
    obtain ⟨h1, h2, h3, h4, h5, h6⟩ := hr2
    exact ⟨h1, h2, h3, h4, h5, fun hp hn => (h6 hp).1 hn⟩
  · intro c hc
    have hc2 : c ∈ (doc.docWires.foldl
        (loadOneWire (doc.docNodes.foldl (loadOneNode known inst)
          (s.graph, [], s.nextId)).snd.fst)
        ((doc.docNodes.foldl (loadOneNode known inst) (s.graph, [], s.nextId)).fst,
         [])).fst.connections := hc
    rcases loadWires_conns _ doc.docWires _ [] c hc2 with hin | hnz
    · have hcc := (loadNodes_graph known inst doc.docNodes s.graph [] s.nextId).1
      rw [hcc] at hin
      exact Or.inl hin
    · exact Or.inr hnz

theorem C1_load_failed_plugin_witness :
    engineIdsOk (initialState 800 600).graph
    ∧ ((loadState [] (fun _ => none) (initialState 800 600) c1doc).wires = c1doc.docWires
       ∧ ∀ c ∈ (loadState [] (fun _ => none) (initialState 800 600) c1doc).graph.connections,
           c ∈ (initialState 800 600).graph.connections
             ∨ (c.srcNode ≠ 0 ∧ c.dstNode ≠ 0)) :=
  ⟨by unfold engineIdsOk; decide,
   (C1_load_failed_plugin [] (fun _ => none) (initialState 800 600) c1doc
       (by unfold engineIdsOk; decide)).2⟩

/-! ## C4: save/load round trip -/

lemma intToNodeType_nodeTypeToInt (t : NodeType) : intToNodeType (nodeTypeToInt t) = t := by
  cases t <;> rfl

lemma saveNode_fields (g : EngineGraph) (n : PluginNode) :
    (saveNode g n).id = n.id ∧ (saveNode g n).ty = nodeTypeToInt n.type
    ∧ (saveNode g n).name = n.name ∧ (saveNode g n).x = n.posX
    ∧ (saveNode g n).y = n.posY := by
  unfold saveNode
  by_cases ht : n.type = NodeType.Plugin
  · rw [if_pos ht]
    cases g.getNodeForId n.graphNodeId with
    | none => exact ⟨rfl, rfl, rfl, rfl, rfl⟩
    | some p => exact ⟨rfl, rfl, rfl, rfl, rfl⟩
  · rw [if_neg ht]
    exact ⟨rfl, rfl, rfl, rfl, rfl⟩

lemma saveNode_plugin_state {g : EngineGraph} {n : PluginNode} {p : Processor}
    (ht : n.type = NodeType.Plugin) (hl : g.getNodeForId n.graphNodeId = some p) :
    (saveNode g n).pluginState = some p.state := by
  unfold saveNode
  rw [if_pos ht, hl]

/-- Claim C4: serialising any graph with at least one Input, one Output,
two Plugin nodes and two wires — all plugin processors live in the engine
and instantiable at load time — and deserialising into a fresh engine
pre-seeded with the two fixed lane identities yields the same node count,
the same wire list, the same per-node id, kind, name and position, and
identical per-plugin state blobs; only the plugin engine node ids may
differ. -/
theorem C4_round_trip :
    ∀ (known : List PluginDescription) (inst : PluginDescription → Option Processor)
      (s : HostState) (w h : Int),
    1 ≤ (s.nodes.filter (fun n => decide (n.type = NodeType.Input))).length →
    1 ≤ (s.nodes.filter (fun n => decide (n.type = NodeType.Output))).length →
    2 ≤ (s.nodes.filter (fun n => decide (n.type = NodeType.Plugin))).length →
    2 ≤ s.wires.length →
    (∀ n ∈ s.nodes, n.type = NodeType.Plugin →
        (s.graph.getNodeForId n.graphNodeId).isSome) →
    (∀ d, (inst d).isSome) →
    (loadState known inst (initialState w h) (saveState s)).nodes.length = s.nodes.length
    ∧ (loadState known inst (initialState w h) (saveState s)).wires = s.wires
    ∧ List.Forall₂ (fun n n2 => n2.id = n.id ∧ n2.type = n.type ∧ n2.name = n.name
        ∧ n2.posX = n.posX ∧ n2.posY = n.posY
        ∧ (n.type = NodeType.Plugin → ∀ p, s.graph.getNodeForId n.graphNodeId = some p →
            ∃ q, (loadState known inst (initialState w h) (saveState s)).graph.getNodeForId
                  n2.graphNodeId = some q ∧ q.state = p.state))
        s.nodes (loadState known inst (initialState w h) (saveState s)).nodes := by
  intro known inst s w h hIn hOut hPl hW hLive hInst
  have hengOk : engineIdsOk (initialState w h).graph := by
    show engineIdsOk initialEngine
    unfold engineIdsOk
    decide
  obtain ⟨new, hnew, hrel⟩ := loadNodes_rel known inst (saveState s).docNodes
    (initialState w h).graph [] (initialState w h).nextId hengOk
  have hnodes : (loadState known inst (initialState w h) (saveState s)).nodes
      = ((saveState s).docNodes.foldl (loadOneNode known inst)
          ((initialState w h).graph, [], (initialState w h).nextId)).snd.fst := rfl
  have hEN : (loadState known inst (initialState w h) (saveState s)).graph.engineNodes
      = ((saveState s).docNodes.foldl (loadOneNode known inst)
          ((initialState w h).graph, [], (initialState w h).nextId)).fst.engineNodes :=
    loadWires_engineNodes _ (saveState s).docWires _ []
  have hdocs : (saveState s).docNodes = s.nodes.map (saveNode s.graph) := rfl
  rw [hdocs] at hrel
  have hrel2 := List.forall₂_map_left_iff.mp hrel
  refine ⟨?_, ?_, ?_⟩
  · rw [hnodes, hnew]
    simp only [List.nil_append]
    exact (List.Forall₂.length_eq hrel2).symm
  · rw [loadState_wires]
    rfl
  · rw [hnodes, hnew]
    simp only [List.nil_append]
    refine List.Forall₂.imp ?_ hrel2
    intro n n2 hr2
    obtain ⟨f1, f2, f3, f4, f5, f6⟩ := hr2
    obtain ⟨s1, s2, s3, s4, s5⟩ := saveNode_fields s.graph n
    refine ⟨by rw [f1, s1], by rw [f2, s2, intToNodeType_nodeTypeToInt],
      by rw [f3, s3], by rw [f4, s4], by rw [f5, s5], ?_⟩
    intro ht p hp
    have hty : intToNodeType (saveNode s.graph n).ty = NodeType.Plugin := by
      rw [s2, intToNodeType_nodeTypeToInt]
      exact ht
    obtain ⟨q, hq⟩ := Option.isSome_iff_exists.mp
      (hInst (resolveDesc known (saveNode s.graph n)))
    have h6 := (f6 hty).2 q hq
    refine ⟨restoreProcState q (saveNode s.graph n).pluginState, ?_, ?_⟩
    · rw [getNodeForId_eq_of_engineNodes hEN n2.graphNodeId]
      exact h6.2
    · rw [saveNode_plugin_state ht hp]
      rfl

/-- The instantiation service used by the round-trip witness: every
descriptor resolves to a fresh processor reporting that descriptor. -/
def c4inst : PluginDescription → Option Processor :=
  fun d => some { descName := d.name, descFormat := d.pluginFormatName,
                  descIdent := d.fileOrIdentifier, state := "fresh" }

/-- First plugin processor of the round-trip witness graph. -/
def c4procA : Processor :=
  { descName := "Rev", descFormat := "VST", descIdent := "rev.dll", state := "blobA" }

/-- Second plugin processor of the round-trip witness graph. -/
def c4procB : Processor :=
  { descName := "Eq", descFormat := "VST", descIdent := "eq.dll", state := "blobB" }

/-- A canvas with one Input, one Output, two wired Plugin nodes, over an
engine holding the fixed lane nodes and both plugin processors. -/
def c4state : HostState :=
  { graph := (((initialEngine.addNodeAuto c4procA).fst).addNodeAuto c4procB).fst,
    nodes := [{ id := 1, type := NodeType.Input, name := "Mic", posX := 0, posY := 40,
                graphNodeId := kInputNodeUID },
              { id := 2, type := NodeType.Output, name := "Spk", posX := 630, posY := 40,
                graphNodeId := kOutputNodeUID },
              { id := 3, type := NodeType.Plugin, name := "Rev", posX := 300, posY := 100,
                graphNodeId := 1000002 },
              { id := 4, type := NodeType.Plugin, name := "Eq", posX := 300, posY := 200,
                graphNodeId := 1000003 }],
    wires := [⟨1, 3⟩, ⟨3, 2⟩], nextId := 5, selectedNode := -1,
    width := 800, height := 600 }

theorem C4_round_trip_witness :
    (∀ n ∈ c4state.nodes, n.type = NodeType.Plugin →
        (c4state.graph.getNodeForId n.graphNodeId).isSome)
    ∧ (loadState [] c4inst (initialState 800 600) (saveState c4state)).nodes.length
        = c4state.nodes.length
    ∧ (loadState [] c4inst (initialState 800 600) (saveState c4state)).wires
        = c4state.wires :=
  ⟨by decide,
   (C4_round_trip [] c4inst c4state 800 600 (by decide) (by decide) (by decide) (by decide)
      (by decide) (fun d => rfl)).1,
   (C4_round_trip [] c4inst c4state 800 600 (by decide) (by decide) (by decide) (by decide)
      (by decide) (fun d => rfl)).2.1⟩

end LightHost
